import Mathlib

/-!
# LogWatcher: the polling loop of `logwatcher.cpp`

A shallow embedding of `main` of `src/logwatcher.cpp`: the main loop (lines 394-505), the
keyword matcher inside it (lines 421-433), the trigger decision (lines 436-480), the
start-up normalisation of interval and timeout (lines 225-255), argument parsing (lines
106-219) and the rest of the start-up (lines 222-390).

Conventions of the embedding

* `std::string` is the list of its characters; `std::string::npos` is `none`.
* `long long` values are `Int`.  The loop adds `interval_seconds` to `duration` only while
  `duration <= timeout_seconds`, so no value leaves the 64-bit range as long as the
  constants of `logwatcher.hpp` are far below `2^62`.
* The header `logwatcher.hpp` is not part of the sources at hand: its constants
  (`MIN_INTERVAL_SECOND`, `MAX_INTERVAL_SECOND`, `MAX_TIMEOUT_SECOND`, `CHECK_PPID`, the
  `DEFAULT_*` values) and the value `set_defaults_and_startup_cond()` returns are
  parameters.
* An exception that leaves `main` (`std::stoll`, `std::stoi`, the `popen` failure of
  `system_exec`) ends the process without a status returned by `main`.
* What the operating system answers at a tick (the output of the `ps` probe, whether the
  file can be opened, the lines `std::getline` delivers, the status `std::system` returns)
  is an explicit observation `Obs`; a run is determined by the configuration and by the
  observation of every tick.
* The `for` loop is a function of a fuel argument; `main_loop` supplies
  `floor((timeout - start) / interval) + 1` ticks of fuel, which is enough whenever the
  interval is positive (`for_loop_enough_fuel`, `main_loop_returns`).
-/

set_option autoImplicit false

namespace LogWatcher

/-! ## Strings -/

/-- A `std::string`, as the list of its characters. -/
abbrev Str := List Char

/-- The scan of `std::string::find`: `s` is the text that is still to be searched and
`pos` the position of its first character in the whole string. -/
def find_from (needle : Str) : Str → Nat → Option Nat
  | [], pos => if needle = [] then some pos else none
  | c :: cs, pos =>
    if needle.isPrefixOf (c :: cs) then some pos else find_from needle cs (pos + 1)

/-- The call `s.find(needle)`: the first position at which `needle` occurs in `s`,
`none` standing for `std::string::npos`. -/
def find (s needle : Str) : Option Nat := find_from needle s 0

/-! ## The keyword matcher (lines 421-433) -/

/-- Lines 421-423: every slot of `found` is written `false`. -/
def reset_found (found : List Bool) : List Bool :=
  (List.range found.length).foldl (fun fnd num => fnd.set num false) found

/-- Lines 428-432: the loop over `num` for one line of the file. -/
def mark_line (keywords : List Str) (ignore_keyword line : Str) (found : List Bool) :
    List Bool :=
  (List.range keywords.length).foldl
    (fun fnd num =>
      if (find line (keywords.getD num [])).isSome && (find line ignore_keyword).isNone
      then fnd.set num true else fnd)
    found

/-- Lines 421-433: one pass over the file.  `found` is the vector the previous tick left,
`lines` are the lines `std::getline` delivers. -/
def file_pass (keywords : List Str) (ignore_keyword : Str) (found : List Bool)
    (lines : List Str) : List Bool :=
  lines.foldl (fun fnd line => mark_line keywords ignore_keyword line fnd)
    (reset_found found)

/-! ## Events, configuration, observations -/

/-- What a tick does, in the order in which it does it. -/
inductive Event where
  /-- `system_exec(check_ppid_alive)`: `none` when `popen` fails (the function throws). -/
  | probe (output : Option Str)
  /-- `file_exists(filepath)` and its result. -/
  | file_exists (good : Bool)
  /-- The pass over the file, with the presence vector it leaves. -/
  | scan (found : List Bool)
  /-- The assignment to the variable `condition` and the value assigned. -/
  | condition (value : Bool)
  /-- `main_execute`: the status `std::system(command)` returned and whether the success
  message (rather than the error message) was printed. -/
  | execute (status : Int) (ok : Bool)
  /-- The message of the verbose mode when the condition does not hold. -/
  | diagnostic
  /-- The `sleep_for` at the end of the loop body (line 493). -/
  | sleep
  deriving DecidableEq

/-- The variables of `main` that the start-up normalisation and the loop read.  The loop
writes none of them. -/
structure Config where
  keywords : List Str
  ignore_keyword : Str
  found_cond : Bool
  all_cond : Bool
  stay : Bool
  verbose : Bool
  check_once : Bool
  check_at_start : Bool
  interval_seconds : Int
  timeout_seconds : Int
  /-- The constant `CHECK_PPID` of `logwatcher.hpp`. -/
  CHECK_PPID : Bool

/-- What the operating system answers at one tick. -/
structure Obs where
  /-- The result of `system_exec(check_ppid_alive)`; `none` when `popen` fails. -/
  ps_output : Option Str
  /-- The result of `file_exists(filepath)`. -/
  file_good : Bool
  /-- The lines `std::getline` delivers from the stream opened on `filepath`. -/
  lines : List Str
  /-- What `std::system(command)` returns if it is called at this tick. -/
  system_status : Int

/-- The variables the loop writes. -/
structure LoopState where
  duration : Int
  found : List Bool
  condition : Bool
  error_exit : Bool
  deriving DecidableEq

/-- The way the loop is left. -/
inductive Ended where
  /-- The test `duration <= timeout_seconds` failed. -/
  | expired
  /-- The `break` of line 491. -/
  | triggered
  /-- The `break` of line 415. -/
  | parent_dead
  /-- The `break` of line 487. -/
  | file_missing
  /-- The `std::runtime_error` of `system_exec`, which `main` does not catch. -/
  | exception
  deriving DecidableEq

/-! ## The trigger decision (lines 436-480) -/

/-- The call `std::all_of(found.begin(), found.end(), p)`. -/
def all_of (p : Bool → Bool) (found : List Bool) : Bool := found.all p

/-- The call `std::any_of(found.begin(), found.end(), p)`. -/
def any_of (p : Bool → Bool) (found : List Bool) : Bool := found.any p

/-- Lines 70-81: `std::system(command)` has returned `status`; one of two messages is
printed and nothing is returned. -/
def main_execute (status : Int) : Event := Event.execute status (status == 0)

/-- The body shared by the four branches: `if( condition ){ ... main_execute ... }
else if( verbose ){ ... }`. -/
def act (condition verbose : Bool) (status : Int) : List Event :=
  if condition then [main_execute status]
  else if verbose then [Event.diagnostic] else []

/-- Lines 436-480: the new value of `condition` and what the tick does about it. -/
def evaluate (c : Config) (found : List Bool) (status : Int) : Bool × List Event :=
  if c.found_cond then
    if c.all_cond then
      let condition := all_of (fun x => x) found
      (condition, Event.condition condition :: act condition c.verbose status)
    else
      let condition := any_of (fun x => x) found
      (condition, Event.condition condition :: act condition c.verbose status)
  else
    if c.all_cond then
      let condition := all_of (fun x => !x) found
      (condition, Event.condition condition :: act condition c.verbose status)
    else
      let condition := any_of (fun x => !x) found
      (condition, Event.condition condition :: act condition c.verbose status)

/-! ## The loop (lines 394-505) -/

/-- Lines 419-493, the part of the body after the liveness probe.  `pre` are the events
of the probe. -/
def check_file (c : Config) (s : LoopState) (o : Obs) (pre : List Event) :
    List Event × LoopState × Option Ended :=
  if o.file_good then
    let found := file_pass c.keywords c.ignore_keyword s.found o.lines
    let r := evaluate c found o.system_status
    let s1 : LoopState := { s with found := found, condition := r.1 }
    if r.1 && !c.stay then
      (pre ++ [Event.file_exists true, Event.scan found] ++ r.2, s1, some Ended.triggered)
    else
      (pre ++ [Event.file_exists true, Event.scan found] ++ r.2 ++ [Event.sleep], s1, none)
  else
    (pre ++ [Event.file_exists false], { s with error_exit := true },
      some Ended.file_missing)

/-- Lines 405-494: one execution of the loop body.  The third component is `none` when
the body reaches its end (the loop then adds the interval to `duration`). -/
def loop_body (c : Config) (s : LoopState) (o : Obs) :
    List Event × LoopState × Option Ended :=
  if c.CHECK_PPID then
    match o.ps_output with
    | none => ([Event.probe none], s, some Ended.exception)
    | some output =>
      if output.isEmpty then
        ([Event.probe (some output)], { s with error_exit := true }, some Ended.parent_dead)
      else check_file c s o [Event.probe (some output)]
  else check_file c s o []

/-- One executed loop body: the value of `duration` it ran at and what it did. -/
structure TickLog where
  duration : Int
  events : List Event
  deriving DecidableEq

/-- The loop, once left. -/
structure LoopResult where
  ticks : List TickLog
  final : LoopState
  ended : Ended
  deriving DecidableEq

/-- Line 404: `for( ; duration <= timeout_seconds ; duration += interval_seconds)`.
`env k` is the observation of tick `k`; the result is `none` when the fuel is used up
before the loop is left. -/
def for_loop (c : Config) (env : Nat → Obs) : Nat → Nat → LoopState → Option LoopResult
  | 0, _, s =>
    if s.duration ≤ c.timeout_seconds then none
    else some { ticks := [], final := s, ended := Ended.expired }
  | fuel + 1, k, s =>
    if s.duration ≤ c.timeout_seconds then
      match loop_body c s (env k) with
      | (evs, s1, some e) =>
        some { ticks := [{ duration := s.duration, events := evs }], final := s1, ended := e }
      | (evs, s1, none) =>
        (for_loop c env fuel (k + 1)
            { s1 with duration := s1.duration + c.interval_seconds }).map
          (fun r => { r with ticks := { duration := s.duration, events := evs } :: r.ticks })
    else some { ticks := [], final := s, ended := Ended.expired }

/-- How the process ends. -/
inductive Exit where
  /-- The value `main` returns. -/
  | status (code : Nat)
  /-- An exception left `main`: `std::terminate` ends the process, without a status
  returned by `main`. -/
  | uncaught
  deriving DecidableEq

/-- A whole run of the loop and the end of `main`. -/
structure Run where
  ticks : List TickLog
  ended : Ended
  /-- The value of `duration` when the loop is left. -/
  duration : Int
  condition : Bool
  error_exit : Bool
  /-- The message of lines 498-502 was printed. -/
  timeout_reported : Bool
  exit : Exit
  deriving DecidableEq

/-- Lines 394-398: the value of `duration` when the loop is entered. -/
def start_duration (c : Config) : Int :=
  if c.check_at_start then 0 else c.interval_seconds

/-- The number of loop bodies `main_loop` allows: `floor((timeout - start)/interval) + 1`. -/
def fuel_bound (c : Config) : Nat :=
  (c.timeout_seconds - start_duration c).toNat / c.interval_seconds.toNat + 1

/-- Lines 498-505: the message about the timeout and the value `main` returns. -/
def finish (c : Config) (r : LoopResult) : Run :=
  { ticks := r.ticks
    ended := r.ended
    duration := r.final.duration
    condition := r.final.condition
    error_exit := r.final.error_exit
    timeout_reported :=
      r.ended != Ended.exception && (!r.final.condition && !r.final.error_exit && c.verbose)
    exit :=
      if r.ended = Ended.exception then Exit.uncaught
      else if r.final.error_exit then Exit.status 1 else Exit.status 0 }

/-- Lines 394-402: the variables of the loop when it is entered. -/
def init_state (c : Config) : LoopState :=
  { duration := start_duration c
    found := List.replicate c.keywords.length false
    condition := false
    error_exit := false }

/-- Lines 394-505: the loop and the end of `main`. -/
def main_loop (c : Config) (env : Nat → Obs) : Option Run :=
  (for_loop c env (fuel_bound c) 0 (init_state c)).map (finish c)

/-! ## Start-up normalisation (lines 225-255) -/

/-- The constants of `logwatcher.hpp` that lines 225-255 read. -/
structure Consts where
  MIN_INTERVAL_SECOND : Int
  MAX_INTERVAL_SECOND : Int
  MAX_TIMEOUT_SECOND : Int

/-- Lines 225-255: the clamping of interval and timeout and the single-shot forcing.
`c` holds the values argument parsing left (`timeout_seconds` is `-1` when the option was
not given). -/
def startup_normalise (k : Consts) (c : Config) : Config :=
  let interval1 :=
    if c.interval_seconds < k.MIN_INTERVAL_SECOND then k.MIN_INTERVAL_SECOND
    else c.interval_seconds
  let interval2 :=
    if interval1 > k.MAX_INTERVAL_SECOND && !c.check_once then k.MAX_INTERVAL_SECOND
    else interval1
  let interval3 :=
    if interval2 > k.MAX_TIMEOUT_SECOND && c.check_once then k.MAX_TIMEOUT_SECOND
    else interval2
  let timeout1 :=
    if c.timeout_seconds < 0 then k.MAX_TIMEOUT_SECOND
    else if c.timeout_seconds > k.MAX_TIMEOUT_SECOND then k.MAX_TIMEOUT_SECOND
    else c.timeout_seconds
  if c.check_once then
    { c with
      interval_seconds := interval3
      timeout_seconds := if c.check_at_start then 1 else interval3 + 1
      stay := false }
  else
    { c with interval_seconds := interval3, timeout_seconds := timeout1 }

/-! ## Argument parsing (lines 106-219) -/

/-- The largest `long long`. -/
def LLONG_MAX : Int := 2 ^ 63 - 1

/-- The smallest `long long`. -/
def LLONG_MIN : Int := -(2 ^ 63)

/-- The largest `int`. -/
def INT_MAX : Int := 2 ^ 31 - 1

/-- The smallest `int`. -/
def INT_MIN : Int := -(2 ^ 31)

/-- A mathematical integer as the `int` with the same residue modulo `2^32`: what a
conversion to `int`, or an `int` operation, leaves when the value is out of range. -/
def wrap32 (x : Int) : Int := (x + 2 ^ 31) % 2 ^ 32 - 2 ^ 31

/-- The `isspace` of the C locale. -/
def is_space (c : Char) : Bool := c.toNat == 32 || (9 ≤ c.toNat && c.toNat ≤ 13)

/-- The value of a string of decimal digits, `acc` being the value of the digits already
read. -/
def digits_value : Str → Nat → Nat
  | [], acc => acc
  | c :: cs, acc => digits_value cs (acc * 10 + (c.toNat - 48))

/-- The conversion `strtoll(s, &end, 10)` without its range check: white space is skipped,
a sign is accepted, the longest run of digits is read; `none` when there is no digit (no
conversion is done). -/
def strtoll_digits (s : Str) : Option Int :=
  let s1 := s.dropWhile is_space
  let neg := s1.head? == some '-'
  let s2 := if s1.head? == some '-' || s1.head? == some '+' then s1.tail else s1
  let ds := s2.takeWhile Char.isDigit
  if ds.isEmpty then none
  else some (if neg then -(digits_value ds 0 : Int) else (digits_value ds 0 : Int))

/-- The call `std::stoll(s)`: `none` when it throws (`std::invalid_argument` when no
conversion is done, `std::out_of_range` when the value is not a `long long`). -/
def stoll (s : Str) : Option Int :=
  match strtoll_digits s with
  | none => none
  | some x => if LLONG_MIN ≤ x ∧ x ≤ LLONG_MAX then some x else none

/-- The call `std::stoi(s)`: `none` when it throws (no conversion, or a value that is not
an `int`). -/
def stoi (s : Str) : Option Int :=
  match strtoll_digits s with
  | none => none
  | some x => if INT_MIN ≤ x ∧ x ≤ INT_MAX then some x else none

/-- The call `abs(x)` of lines 151 and 164 on the `long long` that `std::stoll` returns.
With the headers `logwatcher.cpp` includes, the unqualified `abs` is the `int abs(int)` of
the C library: the argument is converted to `int`, and the result is an `int` (the
absolute value of `INT_MIN` is not an `int` and is wrapped). -/
def int_abs (x : Int) : Int := wrap32 |wrap32 x|

/-- The constants and defaults of `logwatcher.hpp` that argument parsing and start-up read,
with the value `set_defaults_and_startup_cond()` returns (line 223).  The header is not
part of the sources at hand: all of them are parameters. -/
structure Defaults where
  DEFAULT_INTERVAL_SECOND : Int
  DEFAULT_FILEPATH : Str
  DEFAULT_KEYWORDS : List Str
  DEFAULT_COMMAND : Str
  CHECK_PPID : Bool
  /-- The value `set_defaults_and_startup_cond()` returns. -/
  startup_cond : Bool

/-- The variables of `main` that argument parsing writes. -/
structure Parsed where
  filepath : Str
  keywords : List Str
  command : Str
  interval_seconds : Int
  timeout_seconds : Int
  found_cond : Bool
  all_cond : Bool
  check_once : Bool
  check_at_start : Bool
  stay : Bool
  verbose : Bool
  run_in_background : Bool
  ppid : Int
  deriving DecidableEq

/-- Lines 87-103: the variables before the first argument is read. -/
def Parsed.init (d : Defaults) : Parsed :=
  { filepath := []
    keywords := []
    command := []
    interval_seconds := d.DEFAULT_INTERVAL_SECOND
    timeout_seconds := -1
    found_cond := true
    all_cond := false
    check_once := false
    check_at_start := false
    stay := false
    verbose := false
    run_in_background := true
    ppid := -1 }

/-- How argument parsing ends. -/
inductive Parse where
  /-- Every argument was read and `start` is still true: line 218 does not return. -/
  | proceed (v : Parsed)
  /-- Line 218 returns `code`. -/
  | exit (code : Nat)
  /-- An exception of `std::stoll` or `std::stoi` left `main`. -/
  | uncaught
  deriving DecidableEq

/-- What one argument does to the scan. -/
inductive Step where
  /-- A `break`, or an exception: the scan is over. -/
  | stop (r : Parse)
  /-- The scan goes on; `skip` tells that the next argument was read as the value of this
  one (the `++i` inside the branch). -/
  | next (skip : Bool) (v : Parsed)
  deriving DecidableEq

/-- Line 151-155: the interval for the value `x` of the option `-n`. -/
def interval_option (d : Defaults) (x : Int) : Int :=
  if int_abs x = 0 then d.DEFAULT_INTERVAL_SECOND else int_abs x

/-- Lines 164-168: the timeout in seconds for the value `x` (minutes) of the option `-t`.
The product `abs(x) * 60` is a product of two `int`. -/
def timeout_option (k : Consts) (x : Int) : Int :=
  if wrap32 (int_abs x * 60) ≤ 0 then k.MAX_TIMEOUT_SECOND else wrap32 (int_abs x * 60)

/-- Lines 119-216: the body of the loop over the arguments, for the argument `arg`
followed by the arguments `rest`. -/
def parse_arg (k : Consts) (d : Defaults) (arg : Str) (rest : List Str) (v : Parsed) :
    Step :=
  if arg = "-f".toList ∨ arg = "--logfile".toList then
    match rest with
    | value :: _ => Step.next true { v with filepath := value }
    | [] => Step.stop (Parse.exit 1)
  else if arg = "-c".toList ∨ arg = "--catch".toList then
    match rest with
    | value :: _ => Step.next true { v with keywords := v.keywords ++ [value] }
    | [] => Step.stop (Parse.exit 1)
  else if arg = "-e".toList ∨ arg = "--execute".toList then
    match rest with
    | value :: _ => Step.next true { v with command := value }
    | [] => Step.stop (Parse.exit 1)
  else if arg = "-n".toList ∨ arg = "--interval".toList then
    match rest with
    | value :: _ =>
      match stoll value with
      | none => Step.stop Parse.uncaught
      | some x => Step.next true { v with interval_seconds := interval_option d x }
    | [] => Step.stop (Parse.exit 1)
  else if arg = "-t".toList ∨ arg = "--timeout".toList then
    match rest with
    | value :: _ =>
      match stoll value with
      | none => Step.stop Parse.uncaught
      | some x => Step.next true { v with timeout_seconds := timeout_option k x }
    | [] => Step.stop (Parse.exit 1)
  else if arg = "--missing".toList then Step.next false { v with found_cond := false }
  else if arg = "--all".toList then Step.next false { v with all_cond := true }
  else if arg = "--stay".toList then Step.next false { v with stay := true }
  else if arg = "--check-once".toList then Step.next false { v with check_once := true }
  else if arg = "--check-at-start".toList then
    Step.next false { v with check_at_start := true }
  else if arg = "--foreground".toList then
    Step.next false { v with run_in_background := false }
  else if arg = "-v".toList ∨ arg = "--verbose".toList then
    Step.next false { v with verbose := true }
  else if arg = "-V".toList ∨ arg = "--version".toList then Step.stop (Parse.exit 0)
  else if arg = "-h".toList ∨ arg = "--help".toList then Step.stop (Parse.exit 0)
  else if arg = "--ppid".toList then
    match rest with
    | value :: _ =>
      if v.ppid < 0 then
        match stoi value with
        | none => Step.stop Parse.uncaught
        | some x => Step.next true { v with ppid := x }
      else Step.next true v
    | [] => Step.stop (Parse.exit 1)
  else Step.stop (Parse.exit 1)

/-- Lines 117-218: the loop over the arguments `argv[1..]`.  `skip` is true when the
argument at the head was read as the value of the option before it. -/
def parse_args (k : Consts) (d : Defaults) : List Str → Bool → Parsed → Parse
  | [], _, v => Parse.proceed v
  | _ :: rest, true, v => parse_args k d rest false v
  | arg :: rest, false, v =>
    match parse_arg k d arg rest v with
    | Step.stop r => r
    | Step.next skip v1 => parse_args k d rest skip v1

/-! ## Start-up (lines 107-115 and 222-390) and `main` -/

/-- The call `s.find_last_of(ch)`: the last position of `ch` in `s`, `pos` being the
position of the head of `s`. -/
def find_last_of_from (ch : Char) : Str → Nat → Option Nat
  | [], _ => none
  | c :: cs, pos =>
    match find_last_of_from ch cs (pos + 1) with
    | some p => some p
    | none => if c = ch then some pos else none

/-- Lines 107-111: `argv[0]` without its directories. -/
def executable_name (argv0 : Str) : Str :=
  match find_last_of_from '/' argv0 0 with
  | some pos => argv0.drop (pos + 1)
  | none => argv0

/-- Lines 31-36: `std::toupper` on every character. -/
def string_toupper (s : Str) : Str := s.map Char.toUpper

/-- Line 115: the ignore token. -/
def ignore_keyword_of (argv0 : Str) : Str :=
  "<".toList ++ string_toupper (executable_name argv0) ++ "-ignore>".toList

/-- What the start-up asks the operating system, in the order in which it asks. -/
inductive StartEvent where
  /-- The `std::system("command -v ...")` of line 288. -/
  | check_command
  /-- The `getppid()` of line 295. -/
  | getppid
  /-- The `fork()` of line 308. -/
  | fork
  /-- The `gethostname` of line 341. -/
  | gethostname
  deriving DecidableEq

/-- What the operating system answers at start-up. -/
structure StartObs where
  /-- What `std::system(check_command)` returns. -/
  check_command_status : Int
  /-- What `getppid()` returns, as an `int`. -/
  getppid : Int
  /-- What `fork()` returns in the process that is followed. -/
  fork : Int
  /-- What `gethostname` returns. -/
  gethostname : Int

/-- How the start-up ends. -/
inductive Startup where
  /-- `main` returns `code` before the loop. -/
  | exit (code : Nat) (events : List StartEvent)
  /-- The loop is entered with these variables. -/
  | loop (c : Config) (events : List StartEvent)

/-- The variables of the loop as argument parsing left them, with the keyword list
`keywords`. -/
def parsed_config (d : Defaults) (argv0 : Str) (v : Parsed) (keywords : List Str) : Config :=
  { keywords := keywords
    ignore_keyword := ignore_keyword_of argv0
    found_cond := v.found_cond
    all_cond := v.all_cond
    stay := v.stay
    verbose := v.verbose
    check_once := v.check_once
    check_at_start := v.check_at_start
    interval_seconds := v.interval_seconds
    timeout_seconds := v.timeout_seconds
    CHECK_PPID := d.CHECK_PPID }

/-- Lines 294-304: the parent process identifier that is watched and the events of its
look-up. -/
def resolve_ppid (v : Parsed) (o : StartObs) : Int × List StartEvent :=
  if v.ppid < 0 then (o.getppid, [StartEvent.getppid]) else (v.ppid, [])

/-- Lines 306-390: the fork, the host name and the start-up condition; `evs` are the events
so far. -/
def detach (d : Defaults) (v : Parsed) (o : StartObs) (c : Config) (evs : List StartEvent) :
    Startup :=
  if v.run_in_background then
    if o.fork < 0 then Startup.exit 1 (evs ++ [StartEvent.fork])
    else if o.fork > 0 then Startup.exit 0 (evs ++ [StartEvent.fork])
    else if o.gethostname ≠ 0 then
      Startup.exit 1 (evs ++ [StartEvent.fork, StartEvent.gethostname])
    else if !d.startup_cond then
      Startup.exit 1 (evs ++ [StartEvent.fork, StartEvent.gethostname])
    else Startup.loop c (evs ++ [StartEvent.fork, StartEvent.gethostname])
  else
    if o.gethostname ≠ 0 then Startup.exit 1 (evs ++ [StartEvent.gethostname])
    else if !d.startup_cond then Startup.exit 1 (evs ++ [StartEvent.gethostname])
    else Startup.loop c (evs ++ [StartEvent.gethostname])

/-- Lines 222-390: from the parsed variables to the entry of the loop. -/
def startup (k : Consts) (d : Defaults) (argv0 : Str) (v : Parsed) (o : StartObs) :
    Startup :=
  let filepath := if v.filepath.isEmpty then d.DEFAULT_FILEPATH else v.filepath
  let keywords := if v.keywords.isEmpty then d.DEFAULT_KEYWORDS else v.keywords
  let command := if v.command.isEmpty then d.DEFAULT_COMMAND else v.command
  let c := startup_normalise k (parsed_config d argv0 v keywords)
  if filepath.isEmpty then Startup.exit 1 []
  else if keywords.isEmpty then Startup.exit 1 []
  else if command.isEmpty then Startup.exit 1 []
  else if (find command (executable_name argv0)).isSome && c.stay then Startup.exit 1 []
  else if o.check_command_status ≠ 0 then Startup.exit 1 [StartEvent.check_command]
  else if !decide ((resolve_ppid v o).1 > 0) && d.CHECK_PPID then
    Startup.exit 1 (StartEvent.check_command :: (resolve_ppid v o).2)
  else detach d v o c (StartEvent.check_command :: (resolve_ppid v o).2)

/-- How `main` ends. -/
inductive Outcome where
  /-- `main` returns before the loop, or an exception of argument parsing ends the process:
  no tick runs. -/
  | before_loop (exit : Exit) (events : List StartEvent)
  /-- The loop was entered and left. -/
  | after_loop (events : List StartEvent) (c : Config) (run : Run)

/-- The whole of `main`: argument parsing, start-up, loop.  `argv0` is `argv[0]`, `args`
are the other arguments; the result is `none` when the loop does not return. -/
def main (k : Consts) (d : Defaults) (argv0 : Str) (args : List Str) (o : StartObs)
    (env : Nat → Obs) : Option Outcome :=
  match parse_args k d args false (Parsed.init d) with
  | Parse.exit code => some (Outcome.before_loop (Exit.status code) [])
  | Parse.uncaught => some (Outcome.before_loop Exit.uncaught [])
  | Parse.proceed v =>
    match startup k d argv0 v o with
    | Startup.exit code evs => some (Outcome.before_loop (Exit.status code) evs)
    | Startup.loop c evs => (main_loop c env).map (Outcome.after_loop evs c)

/-! ## Auxiliary definitions for the statements -/

/-- The liveness probe of a tick lets the tick go on: liveness checking is off, or the
probe ran and printed something. -/
def Alive (c : Config) (o : Obs) : Prop :=
  c.CHECK_PPID = true → ∃ out, o.ps_output = some out ∧ out ≠ []

/-- The events of the liveness probe of a tick. -/
def probe_events (c : Config) (o : Obs) : List Event :=
  if c.CHECK_PPID then [Event.probe o.ps_output] else []

/-- The truth table of the specification (its section 4.2), in the words of the
specification: when is the trigger decision true, for each value of the two flags. -/
def truth_table (found_cond all_cond : Bool) (found : List Bool) : Prop :=
  match found_cond, all_cond with
  | true, true => ∀ x ∈ found, x = true
  | true, false => ∃ x ∈ found, x = true
  | false, true => ∀ x ∈ found, x = false
  | false, false => ∃ x ∈ found, x = false

/-- The event is a call of `main_execute`. -/
def Event.is_execute : Event → Bool
  | Event.execute _ _ => true
  | _ => false

/-- The number of calls of `main_execute` among the events of a tick. -/
def executions (evs : List Event) : Nat := evs.countP Event.is_execute

/-- A keyword list, a vector left by an earlier tick and three lines, one of which carries
the ignore token. -/
def pass_keywords : List Str := ["ERROR".toList, "WARN".toList]

/-- The lines of the sample file of `pass_keywords`. -/
def pass_lines : List Str :=
  ["ERROR seen".toList, "WARN <LW-ignore>".toList, "all fine".toList]

/-- Scenario A of the specification: one keyword, trigger when it is found, `stay` off,
a check every 10 seconds for at most a minute, liveness checking on. -/
def scenario_A : Config :=
  { keywords := ["ERROR".toList]
    ignore_keyword := "<LOGWATCHER-ignore>".toList
    found_cond := true
    all_cond := false
    stay := false
    verbose := false
    check_once := false
    check_at_start := false
    interval_seconds := 10
    timeout_seconds := 60
    CHECK_PPID := true }

/-- A tick of scenario A: the parent is alive and the file holds the line
"2024 ERROR disk full". -/
def obs_A : Obs :=
  { ps_output := some " 4242\n".toList
    file_good := true
    lines := ["2024 ERROR disk full".toList]
    system_status := 0 }

/-- A tick at which the parent is alive and the file exists and is empty. -/
def obs_quiet : Obs :=
  { ps_output := some " 4242\n".toList
    file_good := true
    lines := []
    system_status := 0 }

/-- Values of the constants of `logwatcher.hpp` with a shortest interval of one second. -/
def consts_min1 : Consts :=
  { MIN_INTERVAL_SECOND := 1, MAX_INTERVAL_SECOND := 3600, MAX_TIMEOUT_SECOND := 86400 }

/-- Values of the constants of `logwatcher.hpp` with a shortest interval of five seconds. -/
def consts_min5 : Consts :=
  { MIN_INTERVAL_SECOND := 5, MAX_INTERVAL_SECOND := 3600, MAX_TIMEOUT_SECOND := 86400 }

/-- The variables after parsing `-c ERROR -n 1 --check-once`: single-shot mode with an
interval of one second, no timeout given. -/
def once_cfg : Config :=
  { keywords := ["ERROR".toList]
    ignore_keyword := "<LOGWATCHER-ignore>".toList
    found_cond := true
    all_cond := false
    stay := false
    verbose := false
    check_once := true
    check_at_start := false
    interval_seconds := 1
    timeout_seconds := -1
    CHECK_PPID := true }

/-- Scenario D of the specification: the file is there at the first tick and gone at the
second. -/
def env_D : Nat → Obs := fun k =>
  if k = 0 then obs_quiet else { obs_quiet with file_good := false }

/-- Scenario C of the specification: trigger when the keyword is missing, all keywords
required, one keyword, `stay` off. -/
def scenario_C : Config :=
  { scenario_A with keywords := ["READY".toList], found_cond := false, all_cond := true }

/-- A tick at which the probe prints nothing (the parent is dead) and the file cannot be
opened either. -/
def obs_dead_missing : Obs :=
  { ps_output := some [], file_good := false, lines := [], system_status := 0 }

/-- A tick at which `popen` fails in the probe and the file cannot be opened. -/
def obs_popen_missing : Obs :=
  { ps_output := none, file_good := false, lines := [], system_status := 0 }

/-- Scenario E of the specification: the probe prints nothing at the very first tick
(the file is there and holds the keyword). -/
def env_E : Nat → Obs := fun _ => { obs_A with ps_output := some [] }

/-- The observations `env`, with the status `std::system` returns at tick `k` replaced by
`σ k`. -/
def with_status (env : Nat → Obs) (σ : Nat → Int) : Nat → Obs :=
  fun k => { env k with system_status := σ k }

/-- An event without what depends on the status of the command: a call of `main_execute`
stays a call of `main_execute`. -/
def Event.forget_status : Event → Event
  | Event.execute _ _ => Event.execute 0 true
  | e => e

/-- A tick without the statuses of the command. -/
def TickLog.forget_status (t : TickLog) : TickLog :=
  { t with events := t.events.map Event.forget_status }

/-- The loop, once left, without the statuses of the command. -/
def LoopResult.forget_status (r : LoopResult) : LoopResult :=
  { r with ticks := r.ticks.map TickLog.forget_status }

/-- A run without the statuses of the command: the ticks, what each of them did, the way
the loop was left and the way the process ended are kept. -/
def Run.forget_status (r : Run) : Run :=
  { r with ticks := r.ticks.map TickLog.forget_status }

/-- The command fails (status 256) at every tick. -/
def failing : Nat → Int := fun _ => 256

/-- The command succeeds at every tick. -/
def succeeding : Nat → Int := fun _ => 0

/-- Scenario F of the specification: scenario A with `stay` on. -/
def scenario_F : Config := { scenario_A with stay := true }

/-- Scenario F of the specification: the keyword is in the file at ticks 2 and 5 only. -/
def env_F : Nat → Obs := fun k => if k = 2 ∨ k = 5 then obs_A else obs_quiet

/-- Values of the constants of `logwatcher.hpp` that are all negative (and in the order
`MIN_INTERVAL <= MAX_INTERVAL <= MAX_TIMEOUT`). -/
def consts_negative : Consts :=
  { MIN_INTERVAL_SECOND := -10, MAX_INTERVAL_SECOND := -5, MAX_TIMEOUT_SECOND := -1 }

/-- Defaults of `logwatcher.hpp` that leave file, keywords and command to the command
line. -/
def defaults_plain : Defaults :=
  { DEFAULT_INTERVAL_SECOND := 60
    DEFAULT_FILEPATH := []
    DEFAULT_KEYWORDS := []
    DEFAULT_COMMAND := []
    CHECK_PPID := true
    startup_cond := true }

/-- The name the watcher is started under in the examples. -/
def sample_argv0 : Str := "./logwatcher".toList

/-- A start-up in which every call succeeds and the process followed is the child of the
fork. -/
def start_ok : StartObs :=
  { check_command_status := 0, getppid := 4242, fork := 0, gethostname := 0 }

/-- The option names that take the next argument as their value. -/
def value_options : List Str :=
  ["-f".toList, "--logfile".toList, "-c".toList, "--catch".toList, "-e".toList,
    "--execute".toList, "-n".toList, "--interval".toList, "-t".toList, "--timeout".toList,
    "--ppid".toList]

/-- The option names that print the version or the usage. -/
def exit_options : List Str :=
  ["-V".toList, "--version".toList, "-h".toList, "--help".toList]

/-- The option names that only set a flag. -/
def flag_options : List Str :=
  ["--missing".toList, "--all".toList, "--stay".toList, "--check-once".toList,
    "--check-at-start".toList, "--foreground".toList, "-v".toList, "--verbose".toList]

/-- Every option name argument parsing knows. -/
def option_names : List Str := value_options ++ flag_options ++ exit_options

/-- Trigger on a missing keyword, the only keyword being the ignore token itself. -/
def scenario_ignored : Config :=
  { scenario_A with keywords := ["<LOGWATCHER-ignore>".toList], found_cond := false }

/-- A command line in repeating mode with a timeout of one minute and an interval of two
minutes, in the foreground. -/
def args_short_timeout : List Str :=
  ["-f".toList, "job.log".toList, "-c".toList, "ERROR".toList, "-e".toList, "true".toList,
    "-t".toList, "1".toList, "-n".toList, "120".toList, "--foreground".toList]

/-- The presence vector of a file in the words of the specification: one slot per keyword,
true when some line contains the keyword and does not contain the ignore token. -/
def presence (keywords : List Str) (ignore_keyword : Str) (lines : List Str) : List Bool :=
  keywords.map
    (fun kw => decide (∃ line ∈ lines, kw <:+: line ∧ ¬ ignore_keyword <:+: line))

/-- The tick with observation `o` gets to the evaluation and triggers, in the words of the
specification: the liveness probe lets it go on, the file can be opened, and the truth
table holds of the presence vector of the file. -/
def Triggers (c : Config) (o : Obs) : Prop :=
  Alive c o ∧ o.file_good = true ∧
    truth_table c.found_cond c.all_cond (presence c.keywords c.ignore_keyword o.lines)

/-- The tick with observation `o` gets to the evaluation and does not trigger. -/
def Quiet (c : Config) (o : Obs) : Prop :=
  Alive c o ∧ o.file_good = true ∧
    ¬ truth_table c.found_cond c.all_cond (presence c.keywords c.ignore_keyword o.lines)

/-- The truth table can be decided. -/
instance truth_table_decidable :
    (found_cond all_cond : Bool) → (found : List Bool) →
      Decidable (truth_table found_cond all_cond found)
  | true, true, found => inferInstanceAs (Decidable (∀ x ∈ found, x = true))
  | true, false, found => inferInstanceAs (Decidable (∃ x ∈ found, x = true))
  | false, true, found => inferInstanceAs (Decidable (∀ x ∈ found, x = false))
  | false, false, found => inferInstanceAs (Decidable (∃ x ∈ found, x = false))

/-- Whether the liveness probe lets the tick go on can be decided. -/
instance alive_decidable (c : Config) (o : Obs) : Decidable (Alive c o) :=
  match hc : c.CHECK_PPID, ho : o.ps_output with
  | false, _ => isTrue (fun h => absurd (hc.symm.trans h) (by decide))
  | true, none => isFalse (fun h => by
      obtain ⟨out, h1, _⟩ := h hc
      rw [ho] at h1
      cases h1)
  | true, some [] => isFalse (fun h => by
      obtain ⟨out, h1, h2⟩ := h hc
      rw [ho] at h1
      cases h1
      exact h2 rfl)
  | true, some (x :: xs) => isTrue (fun _ => ⟨x :: xs, ho, by simp⟩)

/-- Whether a tick triggers can be decided. -/
instance triggers_decidable (c : Config) (o : Obs) : Decidable (Triggers c o) :=
  inferInstanceAs (Decidable (_ ∧ _ ∧ _))

/-- Whether a tick is quiet can be decided. -/
instance quiet_decidable (c : Config) (o : Obs) : Decidable (Quiet c o) :=
  inferInstanceAs (Decidable (_ ∧ _ ∧ _))

/-! ## General lemmas -/

theorem find_from_isSome (needle : Str) (s : Str) (pos : Nat) :
    (find_from needle s pos).isSome = true ↔ needle <:+: s := by
  induction s generalizing pos with
  | nil =>
    simp only [find_from]
    split
    · rename_i h; subst h; simp
    · rename_i h; simp [List.infix_nil, h]
  | cons c cs ih =>
    simp only [find_from]
    split
    · rename_i h
      simp only [Option.isSome_some, true_iff]
      exact (List.isPrefixOf_iff_prefix.mp h).isInfix
    · rename_i h
      rw [ih, List.infix_cons_iff]
      constructor
      · intro h1; exact Or.inr h1
      · rintro (h1 | h1)
        · exact absurd (List.isPrefixOf_iff_prefix.mpr h1) h
        · exact h1

theorem find_isSome (s needle : Str) : (find s needle).isSome = true ↔ needle <:+: s :=
  find_from_isSome needle s 0

theorem find_isNone (s needle : Str) : (find s needle).isNone = true ↔ ¬ needle <:+: s := by
  rw [← find_isSome]
  cases find s needle <;> simp

theorem fold_set_length (p : Nat → Bool) (v : Bool) (n : Nat) (f : List Bool) :
    ((List.range n).foldl (fun fnd num => if p num then fnd.set num v else fnd) f).length
      = f.length := by
  induction n with
  | zero => simp
  | succ n ih =>
    rw [List.range_succ, List.foldl_append]
    simp only [List.foldl_cons, List.foldl_nil]
    split
    · rw [List.length_set, ih]
    · exact ih

theorem fold_set_get (p : Nat → Bool) (v : Bool) (n : Nat) (f : List Bool) (i : Nat) :
    ((List.range n).foldl (fun fnd num => if p num then fnd.set num v else fnd) f)[i]?
      = if i < n ∧ p i = true then (f[i]?).map (fun _ => v) else f[i]? := by
  induction n with
  | zero => simp
  | succ n ih =>
    rw [List.range_succ, List.foldl_append]
    simp only [List.foldl_cons, List.foldl_nil]
    split
    · rename_i hp
      rw [List.getElem?_set]
      by_cases hni : n = i
      · subst hni
        simp [hp, fold_set_length]
        by_cases hl : n < f.length
        · simp [hl]
        · simp [hl, List.getElem?_eq_none (Nat.le_of_not_lt hl)]
      · simp only [hni, if_false, ih]
        have : (i < n + 1 ∧ p i = true) ↔ (i < n ∧ p i = true) := by
          constructor
          · rintro ⟨h1, h2⟩; exact ⟨by omega, h2⟩
          · rintro ⟨h1, h2⟩; exact ⟨by omega, h2⟩
        simp only [this]
    · rename_i hp
      rw [ih]
      have : (i < n + 1 ∧ p i = true) ↔ (i < n ∧ p i = true) := by
          constructor
          · rintro ⟨h1, h2⟩
            refine ⟨?_, h2⟩
            rcases Nat.lt_succ_iff_lt_or_eq.mp h1 with h | h
            · exact h
            · subst h; exact absurd h2 hp
          · rintro ⟨h1, h2⟩; exact ⟨by omega, h2⟩
      simp only [this]

theorem reset_found_length (f : List Bool) : (reset_found f).length = f.length := by
  have h := fold_set_length (fun _ => true) false f.length f
  simpa [reset_found] using h

theorem reset_found_get (f : List Bool) (i : Nat) :
    (reset_found f)[i]? = (f[i]?).map (fun _ => false) := by
  have h := fold_set_get (fun _ => true) false f.length f i
  simp only [if_true, and_true] at h
  unfold reset_found
  rw [h]
  split
  · rfl
  · rename_i hi
    simp [List.getElem?_eq_none (Nat.le_of_not_lt hi)]

theorem mark_line_length (ks : List Str) (ig line : Str) (f : List Bool) :
    (mark_line ks ig line f).length = f.length :=
  fold_set_length _ true ks.length f

theorem mark_line_get (ks : List Str) (ig line : Str) (f : List Bool) (i : Nat) :
    (mark_line ks ig line f)[i]? =
      if i < ks.length ∧ ks.getD i [] <:+: line ∧ ¬ ig <:+: line
      then (f[i]?).map (fun _ => true) else f[i]? := by
  unfold mark_line
  rw [fold_set_get (fun num => (find line (ks.getD num [])).isSome && (find line ig).isNone)]
  simp only [Bool.and_eq_true, find_isSome, find_isNone]

theorem fold_mark_length (ks : List Str) (ig : Str) (lines : List Str) (a : List Bool) :
    (lines.foldl (fun fnd line => mark_line ks ig line fnd) a).length = a.length := by
  induction lines generalizing a with
  | nil => rfl
  | cons l ls ih => simp only [List.foldl_cons]; rw [ih, mark_line_length]

theorem fold_mark_get (ks : List Str) (ig : Str) (lines : List Str) (a : List Bool)
    (i : Nat) :
    (lines.foldl (fun fnd line => mark_line ks ig line fnd) a)[i]? =
      if i < ks.length ∧ ∃ line ∈ lines, ks.getD i [] <:+: line ∧ ¬ ig <:+: line
      then (a[i]?).map (fun _ => true) else a[i]? := by
  induction lines generalizing a with
  | nil => simp
  | cons l ls ih =>
    simp only [List.foldl_cons]
    rw [ih, mark_line_get]
    by_cases hi : i < ks.length
    · by_cases h1 : ks.getD i [] <:+: l ∧ ¬ ig <:+: l
      · have h2 : ∃ line ∈ l :: ls, ks.getD i [] <:+: line ∧ ¬ ig <:+: line :=
          ⟨l, List.mem_cons_self _ _, h1⟩
        simp only [hi, h1, h2, and_self, if_true, true_and]
        split <;> simp
      · by_cases h3 : ∃ line ∈ ls, ks.getD i [] <:+: line ∧ ¬ ig <:+: line
        · have h2 : ∃ line ∈ l :: ls, ks.getD i [] <:+: line ∧ ¬ ig <:+: line := by
            obtain ⟨x, hx, hx2⟩ := h3
            exact ⟨x, List.mem_cons_of_mem _ hx, hx2⟩
          simp only [hi, h3, h2, true_and, if_true]
          rw [if_neg (by simpa using h1)]
        · have h2 : ¬ ∃ line ∈ l :: ls, ks.getD i [] <:+: line ∧ ¬ ig <:+: line := by
            rintro ⟨x, hx, hx2⟩
            rcases List.mem_cons.mp hx with rfl | hx
            · exact h1 hx2
            · exact h3 ⟨x, hx, hx2⟩
          simp only [hi, h3, h2, true_and, if_false]
          rw [if_neg (by simpa using h1)]
    · simp [hi]

theorem file_pass_length (ks : List Str) (ig : Str) (f : List Bool) (lines : List Str) :
    (file_pass ks ig f lines).length = f.length := by
  unfold file_pass
  rw [fold_mark_length, reset_found_length]

theorem file_pass_get (ks : List Str) (ig : Str) (f : List Bool) (lines : List Str)
    (i : Nat) (hi : i < f.length) :
    (file_pass ks ig f lines)[i]? =
      some (decide (i < ks.length ∧ ∃ line ∈ lines, ks.getD i [] <:+: line ∧ ¬ ig <:+: line)) := by
  unfold file_pass
  rw [fold_mark_get, reset_found_get, List.getElem?_eq_getElem hi]
  split <;> rename_i h
  · simp only [Option.map_some', Option.some.injEq]
    exact (decide_eq_true h).symm
  · simp only [Option.map_some', Option.some.injEq]
    exact (decide_eq_false h).symm

theorem evaluate_events (c : Config) (found : List Bool) (status : Int) :
    (evaluate c found status).2 =
      Event.condition (evaluate c found status).1 ::
        act (evaluate c found status).1 c.verbose status := by
  unfold evaluate
  split <;> split <;> rfl

theorem loop_body_cases (c : Config) (s : LoopState) (o : Obs) :
    (c.CHECK_PPID = true ∧ o.ps_output = none ∧
      loop_body c s o = ([Event.probe none], s, some Ended.exception)) ∨
    (c.CHECK_PPID = true ∧ o.ps_output = some [] ∧
      loop_body c s o =
        ([Event.probe (some [])], { s with error_exit := true }, some Ended.parent_dead)) ∨
    (Alive c o ∧ o.file_good = false ∧
      loop_body c s o =
        (probe_events c o ++ [Event.file_exists false], { s with error_exit := true },
          some Ended.file_missing)) ∨
    (Alive c o ∧ o.file_good = true ∧
      (evaluate c (file_pass c.keywords c.ignore_keyword s.found o.lines) o.system_status).1
        = true ∧ c.stay = false ∧
      loop_body c s o =
        (probe_events c o ++
          [Event.file_exists true,
            Event.scan (file_pass c.keywords c.ignore_keyword s.found o.lines)] ++
          (evaluate c (file_pass c.keywords c.ignore_keyword s.found o.lines)
            o.system_status).2,
         { s with
           found := file_pass c.keywords c.ignore_keyword s.found o.lines
           condition := true },
         some Ended.triggered)) ∨
    (Alive c o ∧ o.file_good = true ∧
      ((evaluate c (file_pass c.keywords c.ignore_keyword s.found o.lines) o.system_status).1
        = true → c.stay = true) ∧
      loop_body c s o =
        (probe_events c o ++
          [Event.file_exists true,
            Event.scan (file_pass c.keywords c.ignore_keyword s.found o.lines)] ++
          (evaluate c (file_pass c.keywords c.ignore_keyword s.found o.lines)
            o.system_status).2 ++ [Event.sleep],
         { s with
           found := file_pass c.keywords c.ignore_keyword s.found o.lines
           condition :=
             (evaluate c (file_pass c.keywords c.ignore_keyword s.found o.lines)
               o.system_status).1 },
         none)) := by
  have key : ∀ pre : List Event,
      (o.file_good = false ∧
        check_file c s o pre =
          (pre ++ [Event.file_exists false], { s with error_exit := true },
            some Ended.file_missing)) ∨
      (o.file_good = true ∧
        (evaluate c (file_pass c.keywords c.ignore_keyword s.found o.lines)
          o.system_status).1 = true ∧ c.stay = false ∧
        check_file c s o pre =
          (pre ++
            [Event.file_exists true,
              Event.scan (file_pass c.keywords c.ignore_keyword s.found o.lines)] ++
            (evaluate c (file_pass c.keywords c.ignore_keyword s.found o.lines)
              o.system_status).2,
           { s with
             found := file_pass c.keywords c.ignore_keyword s.found o.lines
             condition := true },
           some Ended.triggered)) ∨
      (o.file_good = true ∧
        ((evaluate c (file_pass c.keywords c.ignore_keyword s.found o.lines)
          o.system_status).1 = true → c.stay = true) ∧
        check_file c s o pre =
          (pre ++
            [Event.file_exists true,
              Event.scan (file_pass c.keywords c.ignore_keyword s.found o.lines)] ++
            (evaluate c (file_pass c.keywords c.ignore_keyword s.found o.lines)
              o.system_status).2 ++ [Event.sleep],
           { s with
             found := file_pass c.keywords c.ignore_keyword s.found o.lines
             condition :=
               (evaluate c (file_pass c.keywords c.ignore_keyword s.found o.lines)
                 o.system_status).1 },
           none)) := by
    intro pre
    unfold check_file
    cases hg : o.file_good
    · left; simp
    · right
      cases he : (evaluate c (file_pass c.keywords c.ignore_keyword s.found o.lines)
          o.system_status).1 <;> cases hs : c.stay <;> simp [he, hs]
  unfold loop_body
  cases hc : c.CHECK_PPID
  · have ha : Alive c o := by intro h; rw [hc] at h; cases h
    have hp : probe_events c o = [] := by simp [probe_events, hc]
    rw [hp]
    rcases key [] with h | h | h
    · right; right; left; exact ⟨ha, h.1, by simpa using h.2⟩
    · right; right; right; left; exact ⟨ha, h.1, h.2.1, h.2.2.1, by simpa using h.2.2.2⟩
    · right; right; right; right; exact ⟨ha, h.1, h.2.1, by simpa using h.2.2⟩
  · cases ho : o.ps_output with
    | none => left; simp
    | some out =>
      cases out with
      | nil => right; left; simp
      | cons x xs =>
        have ha : Alive c o := fun _ => ⟨x :: xs, ho, by simp⟩
        have hp : probe_events c o = [Event.probe (some (x :: xs))] := by
          simp [probe_events, hc, ho]
        rw [hp]
        rcases key [Event.probe (some (x :: xs))] with h | h | h
        · right; right; left; exact ⟨ha, h.1, by simpa using h.2⟩
        · right; right; right; left
          exact ⟨ha, h.1, h.2.1, h.2.2.1, by simpa using h.2.2.2⟩
        · right; right; right; right; exact ⟨ha, h.1, h.2.1, by simpa using h.2.2⟩

theorem loop_body_state (c : Config) (s : LoopState) (o : Obs) :
    (loop_body c s o).2.1.found.length = s.found.length ∧
    (loop_body c s o).2.1.duration = s.duration ∧
    ((loop_body c s o).2.2 = none → (loop_body c s o).2.1.error_exit = s.error_exit) := by
  rcases loop_body_cases c s o with h | h | h | h | h
  · rw [h.2.2]; simp
  · rw [h.2.2]; simp
  · rw [h.2.2]; simp
  · rw [h.2.2.2.2]; simp [file_pass_length]
  · rw [h.2.2.2]; simp [file_pass_length]

theorem for_loop_ticks (c : Config) (env : Nat → Obs) :
    ∀ (fuel k : Nat) (s : LoopState) (r : LoopResult), for_loop c env fuel k s = some r →
      (∀ (j : Nat) (hj : j < r.ticks.length), ∃ sj : LoopState,
        sj.found.length = s.found.length ∧ sj.error_exit = s.error_exit ∧
        sj.duration = s.duration + (j : Int) * c.interval_seconds ∧
        sj.duration ≤ c.timeout_seconds ∧
        r.ticks[j] = { duration := sj.duration, events := (loop_body c sj (env (k + j))).1 } ∧
        (j + 1 < r.ticks.length → (loop_body c sj (env (k + j))).2.2 = none) ∧
        (j + 1 = r.ticks.length →
          ((loop_body c sj (env (k + j))).2.2 = some r.ended ∧
            r.final = (loop_body c sj (env (k + j))).2.1) ∨
          ((loop_body c sj (env (k + j))).2.2 = none ∧ r.ended = Ended.expired ∧
            r.final = { (loop_body c sj (env (k + j))).2.1 with
              duration := sj.duration + c.interval_seconds } ∧
            ¬ r.final.duration ≤ c.timeout_seconds))) ∧
      (r.ticks = [] → r.ended = Ended.expired ∧ r.final = s ∧
        ¬ s.duration ≤ c.timeout_seconds) := by
  intro fuel
  induction fuel with
  | zero =>
    intro k s r h
    simp only [for_loop] at h
    split at h
    · cases h
    · rename_i hd
      cases h
      exact ⟨fun j hj => absurd hj (by simp), fun _ => ⟨rfl, rfl, hd⟩⟩
  | succ fuel ih =>
    intro k s r h
    simp only [for_loop] at h
    split at h
    · rename_i hd
      have hst := loop_body_state c s (env k)
      split at h
      · rename_i evs s1 e heq
        cases h
        refine ⟨?_, fun h0 => absurd h0 (by simp)⟩
        intro j hj
        have hj0 : j = 0 := by simpa using hj
        subst hj0
        refine ⟨s, rfl, rfl, by simp, hd, by simp [heq], fun h1 => absurd h1 (by simp), ?_⟩
        intro _
        left
        simp [heq]
      · rename_i evs s1 heq
        rw [heq] at hst
        simp only at hst
        cases hrec : for_loop c env fuel (k + 1)
            { s1 with duration := s1.duration + c.interval_seconds } with
        | none => rw [hrec] at h; cases h
        | some r1 =>
          rw [hrec] at h
          simp only [Option.map_some', Option.some.injEq] at h
          subst h
          obtain ⟨ih1, ih2⟩ := ih (k + 1) _ r1 hrec
          refine ⟨?_, fun h0 => absurd h0 (by simp)⟩
          intro j hj
          cases j with
          | zero =>
            refine ⟨s, rfl, rfl, by simp, hd, by simp [heq], fun _ => by simp [heq], ?_⟩
            intro hlen
            have hnil : r1.ticks = [] := by
              apply List.length_eq_zero.mp
              simp only [List.length_cons] at hlen
              omega
            obtain ⟨e1, e2, e3⟩ := ih2 hnil
            right
            refine ⟨by simp [heq], e1, ?_, ?_⟩
            · simp only [e2, heq, Nat.add_zero]; rw [hst.2.1]
            · simpa [e2] using e3
          | succ j =>
            have hj1 : j < r1.ticks.length := by simpa using hj
            obtain ⟨sj, a1, a2, a3, a4, a5, a6, a7⟩ := ih1 j hj1
            have hk : k + 1 + j = k + (j + 1) := by omega
            rw [hk] at a5 a6 a7
            refine ⟨sj, by simpa [hst.1] using a1, ?_, ?_, a4, ?_, ?_, ?_⟩
            · simpa [hst.2.2 trivial] using a2
            · rw [a3]; simp only [hst.2.1]; push_cast; ring
            · simpa using a5
            · intro h1; exact a6 (by simpa using h1)
            · intro h1; exact a7 (by simpa using h1)
    · rename_i hd
      cases h
      exact ⟨fun j hj => absurd hj (by simp), fun _ => ⟨rfl, rfl, hd⟩⟩

theorem for_loop_enough_fuel (c : Config) (env : Nat → Obs) (hpos : 0 < c.interval_seconds) :
    ∀ (fuel k : Nat) (s : LoopState),
      (s.duration ≤ c.timeout_seconds →
        (c.timeout_seconds - s.duration).toNat / c.interval_seconds.toNat + 1 ≤ fuel) →
      ∃ r, for_loop c env fuel k s = some r := by
  intro fuel
  induction fuel with
  | zero =>
    intro k s h
    simp only [for_loop]
    split
    · rename_i hd; exact absurd (h hd) (Nat.not_succ_le_zero _)
    · exact ⟨_, rfl⟩
  | succ fuel ih =>
    intro k s h
    simp only [for_loop]
    split
    · rename_i hd
      have hst := loop_body_state c s (env k)
      split
      · exact ⟨_, rfl⟩
      · rename_i evs s1 heq
        rw [heq] at hst
        simp only at hst
        have hrec := ih (k + 1) { s1 with duration := s1.duration + c.interval_seconds } (by
          intro hd2
          simp only [hst.2.1] at hd2 ⊢
          have h1 := h hd
          have hI : 0 < c.interval_seconds.toNat := by omega
          have e : (c.timeout_seconds - s.duration).toNat =
              (c.timeout_seconds - (s.duration + c.interval_seconds)).toNat +
                c.interval_seconds.toNat := by omega
          rw [e, Nat.add_div_right _ hI] at h1
          omega)
        obtain ⟨r, hr⟩ := hrec
        exact ⟨_, by rw [hr]; rfl⟩
    · exact ⟨_, rfl⟩

theorem main_loop_returns (c : Config) (env : Nat → Obs) (hpos : 0 < c.interval_seconds) :
    ∃ r, for_loop c env (fuel_bound c) 0 (init_state c) = some r ∧
      main_loop c env = some (finish c r) := by
  obtain ⟨r, hr⟩ := for_loop_enough_fuel c env hpos (fuel_bound c) 0 (init_state c)
    (fun _ => le_refl _)
  exact ⟨r, hr, by simp [main_loop, hr]⟩

theorem evaluate_truth_table (c : Config) (found : List Bool) (status : Int) :
    (evaluate c found status).1 = true ↔ truth_table c.found_cond c.all_cond found := by
  unfold evaluate truth_table
  cases c.found_cond <;> cases c.all_cond <;> simp [all_of, any_of]

theorem executions_probe_events (c : Config) (o : Obs) :
    executions (probe_events c o) = 0 := by
  unfold probe_events executions
  split <;> simp [Event.is_execute]

theorem condition_not_mem_probe_events (c : Config) (o : Obs) (b : Bool) :
    Event.condition b ∉ probe_events c o := by
  unfold probe_events
  split <;> simp

theorem executions_act (b v : Bool) (status : Int) :
    executions (act b v status) = if b = true then 1 else 0 := by
  unfold act executions
  cases b <;> cases v <;> simp [Event.is_execute, main_execute]

theorem condition_not_mem_act (b v : Bool) (status : Int) (x : Bool) :
    Event.condition x ∉ act b v status := by
  unfold act
  cases b <;> cases v <;> simp [main_execute]

theorem not_alive_of_none (c : Config) (o : Obs) (hc : c.CHECK_PPID = true)
    (ho : o.ps_output = none) : ¬ Alive c o := by
  intro h
  obtain ⟨out, h1, _⟩ := h hc
  rw [ho] at h1
  cases h1

theorem not_alive_of_empty (c : Config) (o : Obs) (hc : c.CHECK_PPID = true)
    (ho : o.ps_output = some []) : ¬ Alive c o := by
  intro h
  obtain ⟨out, h1, h2⟩ := h hc
  rw [ho] at h1
  cases h1
  exact h2 rfl

theorem file_pass_congr (ks : List Str) (ig : Str) (f g : List Bool) (lines : List Str)
    (h : f.length = g.length) : file_pass ks ig f lines = file_pass ks ig g lines := by
  apply List.ext_getElem?
  intro i
  by_cases hi : i < f.length
  · rw [file_pass_get ks ig f lines i hi, file_pass_get ks ig g lines i (h ▸ hi)]
  · rw [List.getElem?_eq_none (by rw [file_pass_length]; omega),
      List.getElem?_eq_none (by rw [file_pass_length]; omega)]

theorem loop_body_congr (c : Config) (s t : LoopState) (o : Obs)
    (h : s.found.length = t.found.length) :
    (loop_body c s o).1 = (loop_body c t o).1 ∧
    (loop_body c s o).2.2 = (loop_body c t o).2.2 := by
  have hf := file_pass_congr c.keywords c.ignore_keyword s.found t.found o.lines h
  unfold loop_body check_file
  rw [hf]
  constructor
  · split
    · split
      · rfl
      · split
        · rfl
        · split
          · dsimp only; split <;> rfl
          · rfl
    · split
      · dsimp only; split <;> rfl
      · rfl
  · split
    · split
      · rfl
      · split
        · rfl
        · split
          · dsimp only; split <;> rfl
          · rfl
    · split
      · dsimp only; split <;> rfl
      · rfl

theorem loop_body_final (c : Config) (s : LoopState) (o : Obs) (e : Ended)
    (h : (loop_body c s o).2.2 = some e) (hs : s.error_exit = false) :
    e ≠ Ended.expired ∧
    ((loop_body c s o).2.1.error_exit = true ↔
      (e = Ended.parent_dead ∨ e = Ended.file_missing)) := by
  rcases loop_body_cases c s o with h1 | h1 | h1 | h1 | h1
  · rw [h1.2.2] at h ⊢
    simp only [Option.some.injEq] at h
    subst h
    simp [hs]
  · rw [h1.2.2] at h ⊢
    simp only [Option.some.injEq] at h
    subst h
    simp
  · rw [h1.2.2] at h ⊢
    simp only [Option.some.injEq] at h
    subst h
    simp
  · rw [h1.2.2.2.2] at h ⊢
    simp only [Option.some.injEq] at h
    subst h
    simp [hs]
  · rw [h1.2.2.2] at h
    cases h

theorem main_loop_spec (c : Config) (env : Nat → Obs) (r : Run)
    (h : main_loop c env = some r) :
    (∀ (j : Nat) (hj : j < r.ticks.length),
      r.ticks[j].duration = start_duration c + (j : Int) * c.interval_seconds ∧
      r.ticks[j].duration ≤ c.timeout_seconds ∧
      r.ticks[j].events = (loop_body c (init_state c) (env j)).1 ∧
      (j + 1 < r.ticks.length → (loop_body c (init_state c) (env j)).2.2 = none) ∧
      (j + 1 = r.ticks.length →
        (loop_body c (init_state c) (env j)).2.2 = some r.ended ∨
        ((loop_body c (init_state c) (env j)).2.2 = none ∧ r.ended = Ended.expired))) ∧
    (r.ticks = [] → r.ended = Ended.expired) ∧
    (r.ended = Ended.expired →
      c.timeout_seconds < r.duration ∧
      r.duration = start_duration c + (r.ticks.length : Int) * c.interval_seconds) ∧
    (r.error_exit = true ↔ (r.ended = Ended.parent_dead ∨ r.ended = Ended.file_missing)) ∧
    r.exit =
      (if r.ended = Ended.exception then Exit.uncaught
       else if r.error_exit then Exit.status 1 else Exit.status 0) := by
  unfold main_loop at h
  cases hl : for_loop c env (fuel_bound c) 0 (init_state c) with
  | none => rw [hl] at h; cases h
  | some lr =>
    rw [hl] at h
    simp only [Option.map_some', Option.some.injEq] at h
    subst h
    obtain ⟨t1, t2⟩ := for_loop_ticks c env (fuel_bound c) 0 (init_state c) lr hl
    have hticks : (finish c lr).ticks = lr.ticks := rfl
    have hended : (finish c lr).ended = lr.ended := rfl
    have hdur : (finish c lr).duration = lr.final.duration := rfl
    have herr : (finish c lr).error_exit = lr.final.error_exit := rfl
    have hinit : (init_state c).duration = start_duration c := rfl
    have hinit2 : (init_state c).error_exit = false := rfl
    simp only [hticks, hended, hdur, herr]
    refine ⟨?_, ?_, ?_, ?_, ?_⟩
    · intro j hj
      obtain ⟨sj, a1, a2, a3, a4, a5, a6, a7⟩ := t1 j hj
      have hc := loop_body_congr c sj (init_state c) (env j) a1
      simp only [Nat.zero_add] at a5 a6 a7
      rw [a5]
      refine ⟨by simpa [hinit] using a3, a4, hc.1, ?_, ?_⟩
      · intro h1; rw [← hc.2]; exact a6 h1
      · intro h1
        rcases a7 h1 with h2 | h2
        · left; rw [← hc.2]; exact h2.1
        · right; rw [← hc.2]; exact ⟨h2.1, h2.2.1⟩
    · intro h0; exact (t2 h0).1
    · intro he
      rcases Nat.eq_zero_or_pos lr.ticks.length with h0 | h0
      · have hnil := List.length_eq_zero.mp h0
        obtain ⟨_, e2, e3⟩ := t2 hnil
        rw [e2, h0]
        refine ⟨by simpa [hinit] using lt_of_not_le e3, by simp [hinit]⟩
      · obtain ⟨sj, a1, a2, a3, a4, a5, a6, a7⟩ :=
          t1 (lr.ticks.length - 1) (by omega)
        rcases a7 (by omega) with h2 | h2
        · rw [he] at h2
          exact absurd rfl (loop_body_final c sj _ _ h2.1 (by rw [a2, hinit2])).1
        · have h3 := h2.2.2.2
          rw [h2.2.2.1] at h3 ⊢
          simp only at h3 ⊢
          refine ⟨lt_of_not_le h3, ?_⟩
          rw [a3, hinit]
          have : ((lr.ticks.length - 1 : Nat) : Int) = (lr.ticks.length : Int) - 1 := by
            omega
          rw [this]; ring
    · rcases Nat.eq_zero_or_pos lr.ticks.length with h0 | h0
      · have hnil := List.length_eq_zero.mp h0
        obtain ⟨e1, e2, _⟩ := t2 hnil
        rw [e1, e2]
        simp [hinit2]
      · obtain ⟨sj, a1, a2, a3, a4, a5, a6, a7⟩ :=
          t1 (lr.ticks.length - 1) (by omega)
        have hsj : sj.error_exit = false := by rw [a2, hinit2]
        rcases a7 (by omega) with h2 | h2
        · rw [h2.2]
          exact (loop_body_final c sj _ _ h2.1 hsj).2
        · rw [h2.2.2.1, h2.2.1]
          have := (loop_body_state c sj (env (0 + (lr.ticks.length - 1)))).2.2 h2.1
          simp only [this, hsj]
          simp
    · rfl

theorem loop_body_condition_mem (c : Config) (s : LoopState) (o : Obs) :
    ∀ b : Bool, Event.condition b ∈ (loop_body c s o).1 ↔
      (Alive c o ∧ o.file_good = true ∧
        (evaluate c (file_pass c.keywords c.ignore_keyword s.found o.lines)
          o.system_status).1 = b) := by
  intro b
  rcases loop_body_cases c s o with h | h | h | h | h
  · rw [h.2.2]
    have := not_alive_of_none c o h.1 h.2.1
    simp [this]
  · rw [h.2.2]
    have := not_alive_of_empty c o h.1 h.2.1
    simp [this]
  · rw [h.2.2]
    simp [h.2.1, condition_not_mem_probe_events]
  · rw [h.2.2.2.2, evaluate_events]
    simp [h.1, h.2.1, h.2.2.1, condition_not_mem_probe_events, condition_not_mem_act]
  · rw [h.2.2.2, evaluate_events]
    simp [h.1, h.2.1, condition_not_mem_probe_events, condition_not_mem_act]
    exact eq_comm

theorem loop_body_executions (c : Config) (s : LoopState) (o : Obs) :
    executions (loop_body c s o).1 =
      (if Event.condition true ∈ (loop_body c s o).1 then 1 else 0) := by
  rcases loop_body_cases c s o with h | h | h | h | h
  · rw [h.2.2]; simp [executions, Event.is_execute]
  · rw [h.2.2]; simp [executions, Event.is_execute]
  · rw [h.2.2]
    have h1 := executions_probe_events c o
    have h2 := condition_not_mem_probe_events c o true
    simp only [executions] at h1
    simp [executions, Event.is_execute, h1, h2]
  · rw [h.2.2.2.2, evaluate_events]
    have h1 := executions_probe_events c o
    have h3 := executions_act true c.verbose o.system_status
    simp only [executions] at h1 h3
    simp [executions, Event.is_execute, h1, h3, h.2.2.1]
  · rw [h.2.2.2, evaluate_events]
    have h1 := executions_probe_events c o
    have h2 := condition_not_mem_probe_events c o true
    have h3 := executions_act
      (evaluate c (file_pass c.keywords c.ignore_keyword s.found o.lines)
        o.system_status).1 c.verbose o.system_status
    have h4 := condition_not_mem_act
      (evaluate c (file_pass c.keywords c.ignore_keyword s.found o.lines)
        o.system_status).1 c.verbose o.system_status true
    simp only [executions] at h1 h3
    simp [executions, Event.is_execute, h1, h2, h3, h4]

theorem main_loop_run (c : Config) (env : Nat → Obs) (hpos : 0 < c.interval_seconds) :
    ∃ r, main_loop c env = some r := by
  obtain ⟨r, _, h⟩ := main_loop_returns c env hpos
  exact ⟨_, h⟩

theorem loop_body_trigger_ends (c : Config) (s : LoopState) (o : Obs)
    (hstay : c.stay = false) (h : Event.condition true ∈ (loop_body c s o).1) :
    (loop_body c s o).2.2 = some Ended.triggered := by
  have hm := (loop_body_condition_mem c s o true).mp h
  rcases loop_body_cases c s o with h1 | h1 | h1 | h1 | h1
  · exact absurd hm.1 (not_alive_of_none c o h1.1 h1.2.1)
  · exact absurd hm.1 (not_alive_of_empty c o h1.1 h1.2.1)
  · rw [h1.2.1] at hm; exact absurd hm.2.1 (by simp)
  · rw [h1.2.2.2.2]
  · have := h1.2.2.1 hm.2.2
    rw [hstay] at this
    cases this

theorem run_exit (c : Config) (env : Nat → Obs) (r : Run) (h : main_loop c env = some r) :
    (r.exit = Exit.status 1 ↔ (r.ended = Ended.parent_dead ∨ r.ended = Ended.file_missing)) ∧
    (r.exit = Exit.status 0 ↔ (r.ended = Ended.triggered ∨ r.ended = Ended.expired)) ∧
    (r.exit = Exit.uncaught ↔ r.ended = Ended.exception) := by
  obtain ⟨_, _, _, herr, hexit⟩ := main_loop_spec c env r h
  rw [hexit]
  cases he : r.ended <;> cases hx : r.error_exit <;> simp_all

theorem sum_le_one_of_last {α : Type} (f : α → Nat) :
    ∀ l : List α, (∀ (j : Nat) (hj : j < l.length), j + 1 < l.length → f l[j] = 0) →
      (∀ x ∈ l, f x ≤ 1) → (l.map f).sum ≤ 1 := by
  intro l
  induction l with
  | nil => intro _ _; simp
  | cons x xs ih =>
    intro h1 h2
    cases xs with
    | nil => simpa using h2 x (List.mem_cons_self _ _)
    | cons y ys =>
      have hx : f x = 0 := h1 0 (by simp) (by simp)
      have := ih (fun j hj hj2 => by
        have := h1 (j + 1) (by simpa using hj) (by simpa using hj2)
        simpa using this) (fun z hz => h2 z (List.mem_cons_of_mem _ hz))
      simp only [List.map_cons, List.sum_cons, hx, Nat.zero_add]
      simpa using this

theorem startup_normalise_once (k : Consts) (c : Config) (honce : c.check_once = true) :
    (startup_normalise k c).check_at_start = c.check_at_start ∧
    (startup_normalise k c).stay = false ∧
    (startup_normalise k c).timeout_seconds =
      (if c.check_at_start then 1 else (startup_normalise k c).interval_seconds + 1) := by
  simp [startup_normalise, honce]

theorem startup_interval_ge_two (k : Consts) (c : Config)
    (hmin : 2 ≤ k.MIN_INTERVAL_SECOND) (hmaxi : 2 ≤ k.MAX_INTERVAL_SECOND)
    (hmaxt : 2 ≤ k.MAX_TIMEOUT_SECOND) :
    2 ≤ (startup_normalise k c).interval_seconds := by
  unfold startup_normalise
  cases c.check_once <;> simp <;> (repeat' split) <;> omega

theorem loop_body_ended (c : Config) (s : LoopState) (o : Obs) :
    ((loop_body c s o).2.2 = some Ended.exception ↔
      (c.CHECK_PPID = true ∧ o.ps_output = none)) ∧
    ((loop_body c s o).2.2 = some Ended.parent_dead ↔
      (c.CHECK_PPID = true ∧ o.ps_output = some [])) ∧
    ((loop_body c s o).2.2 = some Ended.file_missing ↔
      (Alive c o ∧ o.file_good = false)) ∧
    ((loop_body c s o).2.2 = some Ended.triggered ↔
      (Alive c o ∧ o.file_good = true ∧ c.stay = false ∧
        (evaluate c (file_pass c.keywords c.ignore_keyword s.found o.lines)
          o.system_status).1 = true)) ∧
    ((loop_body c s o).2.2 = none ↔
      (Alive c o ∧ o.file_good = true ∧
        ((evaluate c (file_pass c.keywords c.ignore_keyword s.found o.lines)
          o.system_status).1 = true → c.stay = true))) ∧
    (loop_body c s o).2.2 ≠ some Ended.expired := by
  rcases loop_body_cases c s o with h | h | h | h | h
  · have ha := not_alive_of_none c o h.1 h.2.1
    rw [h.2.2]
    simp [h.1, h.2.1, ha]
  · have ha := not_alive_of_empty c o h.1 h.2.1
    rw [h.2.2]
    simp [h.1, h.2.1, ha]
  · rw [h.2.2]
    have h1 : ¬ (c.CHECK_PPID = true ∧ o.ps_output = none) :=
      fun hh => not_alive_of_none c o hh.1 hh.2 h.1
    have h2 : ¬ (c.CHECK_PPID = true ∧ o.ps_output = some []) :=
      fun hh => not_alive_of_empty c o hh.1 hh.2 h.1
    simp [h.1, h.2.1, h1, h2]
  · rw [h.2.2.2.2]
    have h1 : ¬ (c.CHECK_PPID = true ∧ o.ps_output = none) :=
      fun hh => not_alive_of_none c o hh.1 hh.2 h.1
    have h2 : ¬ (c.CHECK_PPID = true ∧ o.ps_output = some []) :=
      fun hh => not_alive_of_empty c o hh.1 hh.2 h.1
    simp [h.1, h.2.1, h.2.2.1, h.2.2.2.1, h1, h2]
  · rw [h.2.2.2]
    have h1 : ¬ (c.CHECK_PPID = true ∧ o.ps_output = none) :=
      fun hh => not_alive_of_none c o hh.1 hh.2 h.1
    have h2 : ¬ (c.CHECK_PPID = true ∧ o.ps_output = some []) :=
      fun hh => not_alive_of_empty c o hh.1 hh.2 h.1
    simp [h.1, h.2.1, h1, h2]
    refine ⟨fun hs => ?_, h.2.2.1⟩
    cases hd : (evaluate c (file_pass c.keywords c.ignore_keyword s.found o.lines)
        o.system_status).1
    · rfl
    · have h3 := h.2.2.1 hd
      rw [hs] at h3
      cases h3

theorem run_last_tick (c : Config) (env : Nat → Obs) (r : Run)
    (h : main_loop c env = some r) (n : Nat) (hn : r.ticks.length = n + 1) :
    (loop_body c (init_state c) (env n)).2.2 = some r.ended ∨
      ((loop_body c (init_state c) (env n)).2.2 = none ∧ r.ended = Ended.expired) := by
  obtain ⟨spec, _, _, _, _⟩ := main_loop_spec c env r h
  exact (spec n (by omega)).2.2.2.2 hn.symm

theorem run_ended_not_expired (c : Config) (env : Nat → Obs) (r : Run)
    (h : main_loop c env = some r) (hne : r.ended ≠ Ended.expired) :
    ∃ n, r.ticks.length = n + 1 ∧
      (loop_body c (init_state c) (env n)).2.2 = some r.ended := by
  obtain ⟨spec, hempty, _, _, _⟩ := main_loop_spec c env r h
  rcases Nat.eq_zero_or_pos r.ticks.length with h0 | h0
  · exact absurd (hempty (List.length_eq_zero.mp h0)) hne
  · refine ⟨r.ticks.length - 1, by omega, ?_⟩
    rcases run_last_tick c env r h (r.ticks.length - 1) (by omega) with h1 | h1
    · exact h1
    · exact absurd h1.2 hne

theorem file_pass_all_false (ks : List Str) (ig : Str) (f : List Bool) (lines : List Str)
    (h : ∀ kw ∈ ks, ∀ line ∈ lines, ¬ kw <:+: line) :
    ∀ x ∈ file_pass ks ig f lines, x = false := by
  intro x hx
  obtain ⟨i, hi, rfl⟩ := List.getElem_of_mem hx
  have hi2 : i < f.length := by rwa [file_pass_length] at hi
  have hg := file_pass_get ks ig f lines i hi2
  rw [List.getElem?_eq_getElem hi] at hg
  rw [Option.some.inj hg]
  apply decide_eq_false
  rintro ⟨hik, line, hl, h1, _⟩
  rw [List.getD_eq_getElem?_getD, List.getElem?_eq_getElem hik, Option.getD_some] at h1
  exact h _ (List.getElem_mem hik) line hl h1

theorem run_ended_of_alive (c : Config) (env : Nat → Obs) (r : Run)
    (h : main_loop c env = some r)
    (henv : ∀ k, (env k).file_good = true ∧ Alive c (env k)) :
    (r.ended = Ended.triggered ∧ c.stay = false) ∨ r.ended = Ended.expired := by
  by_cases he : r.ended = Ended.expired
  · exact Or.inr he
  · left
    obtain ⟨n, hn, hb⟩ := run_ended_not_expired c env r h he
    obtain ⟨b1, b2, b3, b4, _, _⟩ := loop_body_ended c (init_state c) (env n)
    cases hre : r.ended
    · exact absurd hre he
    · rw [hre] at hb; exact ⟨rfl, (b4.mp hb).2.2.1⟩
    · rw [hre] at hb
      have := b2.mp hb
      exact absurd (henv n).2 (not_alive_of_empty c _ this.1 this.2)
    · rw [hre] at hb
      have := (b3.mp hb).2
      rw [(henv n).1] at this
      cases this
    · rw [hre] at hb
      have := b1.mp hb
      exact absurd (henv n).2 (not_alive_of_none c _ this.1 this.2)

theorem run_tick_ends (c : Config) (env : Nat → Obs) (r : Run)
    (h : main_loop c env = some r) (i : Nat) (hi : i < r.ticks.length) (e : Ended)
    (hb : (loop_body c (init_state c) (env i)).2.2 = some e) :
    i + 1 = r.ticks.length ∧ r.ended = e := by
  obtain ⟨spec, _, _, _, _⟩ := main_loop_spec c env r h
  obtain ⟨_, _, _, e4, e5⟩ := spec i hi
  have hlen : i + 1 = r.ticks.length := by
    by_contra hne
    have := e4 (by omega)
    rw [this] at hb
    cases hb
  refine ⟨hlen, ?_⟩
  rcases e5 hlen with h5 | h5
  · rw [hb] at h5; exact (Option.some.inj h5).symm
  · rw [hb] at h5; cases h5.1

theorem run_tick_events (c : Config) (env : Nat → Obs) (r : Run)
    (h : main_loop c env = some r) (i : Nat) (hi : i < r.ticks.length) :
    r.ticks[i].events = (loop_body c (init_state c) (env i)).1 := by
  obtain ⟨spec, _, _, _, _⟩ := main_loop_spec c env r h
  exact (spec i hi).2.2.1

theorem file_exists_not_mem_probe_events (c : Config) (o : Obs) (g : Bool) :
    Event.file_exists g ∉ probe_events c o := by
  unfold probe_events
  split <;> simp

theorem scan_not_mem_probe_events (c : Config) (o : Obs) (f : List Bool) :
    Event.scan f ∉ probe_events c o := by
  unfold probe_events
  split <;> simp

theorem loop_body_file_check (c : Config) (s : LoopState) (o : Obs) :
    (∃ g, Event.file_exists g ∈ (loop_body c s o).1) ↔ Alive c o := by
  rcases loop_body_cases c s o with h | h | h | h | h
  · rw [h.2.2]
    simp [not_alive_of_none c o h.1 h.2.1]
  · rw [h.2.2]
    simp [not_alive_of_empty c o h.1 h.2.1]
  · rw [h.2.2]
    simp [h.1]
  · rw [h.2.2.2.2]
    simp [h.1]
  · rw [h.2.2.2]
    simp [h.1]

theorem loop_body_file_missing (c : Config) (s : LoopState) (o : Obs)
    (hg : o.file_good = false) :
    (∀ f, Event.scan f ∉ (loop_body c s o).1) ∧
    executions (loop_body c s o).1 = 0 ∧
    ∃ e, (loop_body c s o).2.2 = some e ∧
      (e = Ended.exception ∨ e = Ended.parent_dead ∨ e = Ended.file_missing) ∧
      (e = Ended.exception ↔ (c.CHECK_PPID = true ∧ o.ps_output = none)) := by
  rcases loop_body_cases c s o with h | h | h | h | h
  · rw [h.2.2]
    simp [executions, Event.is_execute, h.1, h.2.1]
  · rw [h.2.2]
    simp [executions, Event.is_execute, h.1, h.2.1]
  · rw [h.2.2]
    have h1 := executions_probe_events c o
    have h2 : ¬ (c.CHECK_PPID = true ∧ o.ps_output = none) :=
      fun hh => not_alive_of_none c o hh.1 hh.2 h.1
    simp only [executions] at h1
    simp [executions, Event.is_execute, h1, scan_not_mem_probe_events, h2]
  · rw [hg] at h; cases h.2.1
  · rw [hg] at h; cases h.2.1

theorem probe_not_mem_act (b v : Bool) (status : Int) (out : Option Str) :
    Event.probe out ∉ act b v status := by
  unfold act
  cases b <;> cases v <;> simp [main_execute]

theorem loop_body_probe_first (c : Config) (s : LoopState) (o : Obs)
    (hc : c.CHECK_PPID = true) :
    ∃ rest, (loop_body c s o).1 = Event.probe o.ps_output :: rest ∧
      ∀ e ∈ rest, ∀ out, e ≠ Event.probe out := by
  have hp : probe_events c o = [Event.probe o.ps_output] := by simp [probe_events, hc]
  rcases loop_body_cases c s o with h | h | h | h | h
  · rw [h.2.2, h.2.1]; exact ⟨[], rfl, by simp⟩
  · rw [h.2.2, h.2.1]; exact ⟨[], rfl, by simp⟩
  · rw [h.2.2, hp]; exact ⟨_, rfl, by simp⟩
  · rw [h.2.2.2.2, hp, evaluate_events]
    refine ⟨[Event.file_exists true,
        Event.scan (file_pass c.keywords c.ignore_keyword s.found o.lines),
        Event.condition (evaluate c (file_pass c.keywords c.ignore_keyword s.found o.lines)
          o.system_status).1] ++
        act (evaluate c (file_pass c.keywords c.ignore_keyword s.found o.lines)
          o.system_status).1 c.verbose o.system_status, rfl, ?_⟩
    intro e he out heq
    subst heq
    simp [probe_not_mem_act] at he
  · rw [h.2.2.2, hp, evaluate_events]
    refine ⟨[Event.file_exists true,
        Event.scan (file_pass c.keywords c.ignore_keyword s.found o.lines),
        Event.condition (evaluate c (file_pass c.keywords c.ignore_keyword s.found o.lines)
          o.system_status).1] ++
        act (evaluate c (file_pass c.keywords c.ignore_keyword s.found o.lines)
          o.system_status).1 c.verbose o.system_status ++ [Event.sleep], rfl, ?_⟩
    intro e he out heq
    subst heq
    simp [probe_not_mem_act] at he

theorem loop_body_dead (c : Config) (s : LoopState) (o : Obs)
    (hc : c.CHECK_PPID = true) (ho : o.ps_output = some []) :
    (loop_body c s o).1 = [Event.probe (some [])] := by
  rcases loop_body_cases c s o with h | h | h | h | h
  · rw [h.2.2, ← h.2.1, ho]
  · rw [h.2.2]
  · exact absurd h.1 (not_alive_of_empty c o hc ho)
  · exact absurd h.1 (not_alive_of_empty c o hc ho)
  · exact absurd h.1 (not_alive_of_empty c o hc ho)

theorem act_forget_status (b v : Bool) (st st' : Int) :
    (act b v st).map Event.forget_status = (act b v st').map Event.forget_status := by
  unfold act
  cases b <;> cases v <;> simp [main_execute, Event.forget_status]

theorem evaluate_status (c : Config) (found : List Bool) (st st' : Int) :
    (evaluate c found st).1 = (evaluate c found st').1 ∧
    (evaluate c found st).2.map Event.forget_status =
      (evaluate c found st').2.map Event.forget_status := by
  have h1 : (evaluate c found st).1 = (evaluate c found st').1 := by
    unfold evaluate
    split <;> split <;> rfl
  refine ⟨h1, ?_⟩
  rw [evaluate_events, evaluate_events, h1]
  simp only [List.map_cons]
  rw [act_forget_status _ _ st st']

theorem loop_body_status (c : Config) (s : LoopState) (o : Obs) (st st' : Int) :
    (loop_body c s { o with system_status := st }).1.map Event.forget_status =
      (loop_body c s { o with system_status := st' }).1.map Event.forget_status ∧
    (loop_body c s { o with system_status := st }).2 =
      (loop_body c s { o with system_status := st' }).2 := by
  obtain ⟨e1, e2⟩ := evaluate_status c (file_pass c.keywords c.ignore_keyword s.found o.lines)
    st st'
  unfold loop_body check_file
  simp only [e1]
  constructor
  · split
    · split
      · rfl
      · split
        · rfl
        · split
          · split
            · simp only [List.map_append, e2]
            · simp only [List.map_append, e2]
          · rfl
    · split
      · split
        · simp only [List.map_append, e2]
        · simp only [List.map_append, e2]
      · rfl
  · split
    · split
      · rfl
      · split
        · rfl
        · split
          · split <;> rfl
          · rfl
    · split
      · split <;> rfl
      · rfl

theorem for_loop_status (c : Config) (env : Nat → Obs) (σ σ' : Nat → Int) :
    ∀ (fuel k : Nat) (s : LoopState),
      (for_loop c (with_status env σ) fuel k s).map LoopResult.forget_status =
        (for_loop c (with_status env σ') fuel k s).map LoopResult.forget_status := by
  intro fuel
  induction fuel with
  | zero => intro k s; simp only [for_loop]
  | succ fuel ih =>
    intro k s
    simp only [for_loop]
    split
    · obtain ⟨h1, h2⟩ := loop_body_status c s (env k) (σ k) (σ' k)
      have e1 : with_status env σ k = { env k with system_status := σ k } := rfl
      have e2 : with_status env σ' k = { env k with system_status := σ' k } := rfl
      rw [e1, e2]
      rcases hb : loop_body c s { env k with system_status := σ k } with ⟨evs, s1, e⟩
      rcases hb' : loop_body c s { env k with system_status := σ' k } with ⟨evs', s1', e'⟩
      rw [hb, hb'] at h1 h2
      simp only [Prod.mk.injEq] at h1 h2
      obtain ⟨h3, h4⟩ := h2
      subst h3 h4
      cases e with
      | some e =>
        simp only [Option.map_some', LoopResult.forget_status, List.map_cons, List.map_nil,
          TickLog.forget_status, h1]
      | none =>
        simp only [Option.map_map]
        have := ih (k + 1) { s1 with duration := s1.duration + c.interval_seconds }
        cases hr : for_loop c (with_status env σ) fuel (k + 1)
            { s1 with duration := s1.duration + c.interval_seconds } <;>
          cases hr' : for_loop c (with_status env σ') fuel (k + 1)
            { s1 with duration := s1.duration + c.interval_seconds } <;>
          rw [hr, hr'] at this <;>
          simp only [Option.map_some', Option.map_none', Option.some.injEq,
            reduceCtorEq] at this
        · rfl
        · simp only [Option.map_some', Function.comp, LoopResult.forget_status,
            List.map_cons, TickLog.forget_status, h1, Option.some.injEq]
          simp only [LoopResult.forget_status] at this
          rw [LoopResult.mk.injEq] at this ⊢
          exact ⟨by rw [this.1], this.2.1, this.2.2⟩
    · rfl

theorem executions_forget_status (evs : List Event) :
    executions (evs.map Event.forget_status) = executions evs := by
  unfold executions
  rw [List.countP_map]
  congr 1
  funext e
  cases e <;> rfl

theorem finish_forget_status (c : Config) (r : LoopResult) :
    (finish c r).forget_status = finish c r.forget_status := rfl

theorem sum_eq_length_filter {α : Type} (f : α → Nat) (p : α → Bool) :
    ∀ l : List α, (∀ x ∈ l, f x = if p x = true then 1 else 0) →
      (l.map f).sum = (l.filter p).length := by
  intro l
  induction l with
  | nil => intro _; rfl
  | cons x xs ih =>
    intro h
    have hx := h x (List.mem_cons_self _ _)
    have ih1 := ih (fun y hy => h y (List.mem_cons_of_mem _ hy))
    cases hp : p x
    · rw [hp] at hx
      simp only [List.map_cons, List.sum_cons, ih1, List.filter_cons, hp]
      simp at hx ⊢
      exact hx
    · rw [hp] at hx
      simp only [List.map_cons, List.sum_cons, ih1, List.filter_cons, hp]
      simp at hx ⊢
      omega

theorem wrap32_of_range (x : Int) (h1 : INT_MIN ≤ x) (h2 : x ≤ INT_MAX) :
    wrap32 x = x := by
  unfold wrap32
  unfold INT_MIN at h1
  unfold INT_MAX at h2
  have e1 : (2 : Int) ^ 31 = 2147483648 := by norm_num
  have e2 : (2 : Int) ^ 32 = 4294967296 := by norm_num
  rw [e1] at h1 h2 ⊢
  rw [e2]
  omega

theorem timeout_option_zero (k : Consts) : timeout_option k 0 = k.MAX_TIMEOUT_SECOND := by
  have h : wrap32 (int_abs 0 * 60) = 0 := by decide
  unfold timeout_option
  rw [h]
  simp

theorem timeout_option_neg (k : Consts) (m : Int) (hm : 0 < m) (hr : 60 * m ≤ INT_MAX) :
    timeout_option k (-m) = 60 * m := by
  have hl : INT_MAX = 2147483647 := by unfold INT_MAX; norm_num
  have hl2 : INT_MIN = -2147483648 := by unfold INT_MIN; norm_num
  have h0 : wrap32 (-m) = -m :=
    wrap32_of_range (-m) (by rw [hl2]; rw [hl] at hr; omega) (by rw [hl]; omega)
  have h1 : int_abs (-m) = m := by
    unfold int_abs
    rw [h0, abs_neg, abs_of_pos hm]
    exact wrap32_of_range m (by rw [hl2]; omega) (by rw [hl] at hr ⊢; omega)
  have h2 : wrap32 (m * 60) = 60 * m := by
    rw [wrap32_of_range (m * 60) (by rw [hl2]; omega) (by rw [hl] at hr ⊢; omega)]
    ring
  unfold timeout_option
  rw [h1, h2]
  rw [if_neg (by omega)]

theorem parse_arg_unknown (k : Consts) (d : Defaults) (arg : Str) (rest : List Str)
    (v : Parsed) (h : arg ∉ option_names) :
    parse_arg k d arg rest v = Step.stop (Parse.exit 1) := by
  simp only [option_names, value_options, flag_options, exit_options, List.cons_append,
    List.nil_append, List.mem_cons, List.mem_singleton, not_or, List.mem_nil_iff,
    or_false] at h
  unfold parse_arg
  simp only [h, or_self, if_false]

theorem parse_arg_missing_value (k : Consts) (d : Defaults) (arg : Str) (v : Parsed)
    (h : arg ∈ value_options) :
    parse_arg k d arg [] v = Step.stop (Parse.exit 1) := by
  simp only [value_options, List.mem_cons, List.mem_singleton, List.mem_nil_iff,
    or_false] at h
  rcases h with h | h | h | h | h | h | h | h | h | h | h <;> subst h <;> rfl

theorem parse_arg_exit_option (k : Consts) (d : Defaults) (arg : Str) (rest : List Str)
    (v : Parsed) (h : arg ∈ exit_options) :
    parse_arg k d arg rest v = Step.stop (Parse.exit 0) := by
  simp only [exit_options, List.mem_cons, List.mem_singleton, List.mem_nil_iff,
    or_false] at h
  rcases h with h | h | h | h <;> subst h <;> rfl

theorem parse_arg_append (k : Consts) (d : Defaults) (arg : Str) (rest tail : List Str)
    (v v1 : Parsed) (s : Bool) (h : parse_arg k d arg rest v = Step.next s v1) :
    parse_arg k d arg (rest ++ tail) v = Step.next s v1 ∧ (s = true → rest ≠ []) := by
  cases rest with
  | cons value rest1 =>
    refine ⟨?_, fun _ => by simp⟩
    rw [← h]
    unfold parse_arg
    simp only [List.cons_append]
  | nil =>
    by_cases hv : arg ∈ value_options
    · rw [parse_arg_missing_value k d arg v hv] at h
      cases h
    · simp only [value_options, List.mem_cons, List.mem_singleton, not_or, List.mem_nil_iff,
        or_false] at hv
      unfold parse_arg at h ⊢
      simp only [hv, or_self, if_false] at h ⊢
      refine ⟨h, ?_⟩
      intro hs
      subst hs
      revert h
      repeat' split
      all_goals (intro h; cases h)

theorem step_ite {P : Step → Prop} {c : Prop} [Decidable c] {a b : Step}
    (ha : P a) (hb : P b) : P (if c then a else b) := by
  split
  · exact ha
  · exact hb

theorem parse_arg_not_proceed (k : Consts) (d : Defaults) (arg : Str) (rest : List Str)
    (v v1 : Parsed) : parse_arg k d arg rest v ≠ Step.stop (Parse.proceed v1) := by
  unfold parse_arg
  repeat' refine step_ite (P := fun s => s ≠ Step.stop (Parse.proceed v1)) ?_ ?_
  all_goals
    first
    | (intro h; cases h)
    | (cases rest with
       | nil => intro h; cases h
       | cons value tail =>
         first
         | (intro h; cases h)
         | (show (match stoll value with
              | none => Step.stop Parse.uncaught
              | some x => _) ≠ _
            cases stoll value <;> (intro h; cases h))
         | (dsimp only
            split
            · cases stoi value <;> (intro h; cases h)
            · intro h; cases h))

theorem parse_args_append (k : Consts) (d : Defaults) (tail : List Str) :
    ∀ (pre : List Str) (s : Bool) (v0 v : Parsed), (s = true → pre ≠ []) →
      parse_args k d pre s v0 = Parse.proceed v →
      parse_args k d (pre ++ tail) s v0 = parse_args k d tail false v := by
  intro pre
  induction pre with
  | nil =>
    intro s v0 v hs h
    cases s with
    | true => exact absurd rfl (hs rfl)
    | false =>
      simp only [parse_args, Parse.proceed.injEq] at h
      subst h
      rfl
  | cons arg rest ih =>
    intro s v0 v _ h
    cases s with
    | true =>
      simp only [parse_args, List.cons_append] at h ⊢
      exact ih false v0 v (fun h0 => by cases h0) h
    | false =>
      simp only [parse_args, List.cons_append] at h ⊢
      cases hp : parse_arg k d arg rest v0 with
      | stop r =>
        rw [hp] at h
        simp only at h
        subst h
        exact absurd hp (parse_arg_not_proceed k d arg rest v0 v)
      | next s1 v1 =>
        rw [hp] at h
        simp only at h
        obtain ⟨h1, h2⟩ := parse_arg_append k d arg rest tail v0 v1 s1 hp
        have e : rest.append tail = rest ++ tail := rfl
        rw [e, h1]
        exact ih s1 v1 v h2 h

theorem file_pass_ignored (ks : List Str) (ig : Str) (f : List Bool) (lines : List Str)
    (i : Nat) (hi : i < ks.length) (hf : f.length = ks.length) (hig : ig <:+: ks[i]) :
    (file_pass ks ig f lines)[i]? = some false := by
  rw [file_pass_get ks ig f lines i (by omega)]
  simp only [Option.some.injEq, decide_eq_false_iff_not, not_and, not_exists, not_not]
  intro _ line _ h1
  rw [List.getD_eq_getElem?_getD, List.getElem?_eq_getElem hi, Option.getD_some] at h1
  exact hig.trans h1

theorem file_pass_single_ignored (kw ig : Str) (f : List Bool) (lines : List Str)
    (hf : f.length = 1) (hig : ig <:+: kw) : file_pass [kw] ig f lines = [false] := by
  apply List.ext_getElem?
  intro i
  cases i with
  | zero =>
    rw [file_pass_ignored [kw] ig f lines 0 (by simp) (by simpa using hf) (by simpa using hig)]
    rfl
  | succ n =>
    rw [List.getElem?_eq_none (by rw [file_pass_length, hf]; omega)]
    rfl

theorem file_pass_mono (ks : List Str) (ig : Str) (f g : List Bool) (l l1 : List Str)
    (hfg : f.length = g.length) (i : Nat)
    (h : (file_pass ks ig f l)[i]? = some true) :
    (file_pass ks ig g (l ++ l1))[i]? = some true := by
  have hi : i < f.length := by
    by_contra hn
    rw [List.getElem?_eq_none (by rw [file_pass_length]; omega)] at h
    cases h
  rw [file_pass_get ks ig f l i hi] at h
  rw [file_pass_get ks ig g (l ++ l1) i (by omega)]
  simp only [Option.some.injEq, decide_eq_true_eq] at h ⊢
  obtain ⟨h1, line, hl, h2⟩ := h
  exact ⟨h1, line, List.mem_append_left _ hl, h2⟩

theorem exists_true_mono (a b : List Bool)
    (hmono : ∀ i : Nat, a[i]? = some true → b[i]? = some true)
    (h : ∃ x ∈ a, x = true) : ∃ x ∈ b, x = true := by
  obtain ⟨x, hx, rfl⟩ := h
  obtain ⟨i, hi, hxi⟩ := List.getElem_of_mem hx
  have e : a[i]? = some true := by rw [List.getElem?_eq_getElem hi, hxi]
  exact ⟨true, List.getElem?_mem (hmono i e), rfl⟩

theorem forall_true_mono (a b : List Bool) (hlen : a.length = b.length)
    (hmono : ∀ i : Nat, a[i]? = some true → b[i]? = some true)
    (h : ∀ x ∈ a, x = true) : ∀ x ∈ b, x = true := by
  intro x hx
  obtain ⟨i, hi, hxi⟩ := List.getElem_of_mem hx
  have hia : i < a.length := by omega
  have h1 := h a[i] (List.getElem_mem hia)
  have e : a[i]? = some true := by rw [List.getElem?_eq_getElem hia, h1]
  have e1 := hmono i e
  rw [List.getElem?_eq_getElem hi, hxi] at e1
  exact Option.some.inj e1

theorem for_loop_expired_at_once (c : Config) (env : Nat → Obs) (fuel k : Nat)
    (s : LoopState) (h : ¬ s.duration ≤ c.timeout_seconds) :
    for_loop c env fuel k s = some { ticks := [], final := s, ended := Ended.expired } := by
  cases fuel with
  | zero => simp only [for_loop, if_neg h]
  | succ n => simp only [for_loop, if_neg h]

theorem file_pass_eq_presence (ks : List Str) (ig : Str) (f : List Bool) (lines : List Str)
    (h : f.length = ks.length) : file_pass ks ig f lines = presence ks ig lines := by
  apply List.ext_getElem?
  intro i
  by_cases hi : i < ks.length
  · rw [file_pass_get ks ig f lines i (by omega)]
    unfold presence
    rw [List.getElem?_map, List.getElem?_eq_getElem hi]
    simp only [Option.map_some', Option.some.injEq, hi, true_and,
      List.getD_eq_getElem?_getD, List.getElem?_eq_getElem hi, Option.getD_some]
  · rw [List.getElem?_eq_none (by rw [file_pass_length]; omega),
      List.getElem?_eq_none (by unfold presence; rw [List.length_map]; omega)]

theorem init_found_length (c : Config) : (init_state c).found.length = c.keywords.length := by
  simp [init_state]

theorem decision_iff (c : Config) (o : Obs) :
    (evaluate c (file_pass c.keywords c.ignore_keyword (init_state c).found o.lines)
      o.system_status).1 = true ↔
    truth_table c.found_cond c.all_cond (presence c.keywords c.ignore_keyword o.lines) := by
  rw [evaluate_truth_table, file_pass_eq_presence _ _ _ _ (init_found_length c)]

theorem condition_mem_iff_triggers (c : Config) (o : Obs) :
    Event.condition true ∈ (loop_body c (init_state c) o).1 ↔ Triggers c o := by
  rw [loop_body_condition_mem, decision_iff]
  rfl

theorem loop_body_continues_iff (c : Config) (o : Obs) :
    (loop_body c (init_state c) o).2.2 = none ↔
      (Alive c o ∧ o.file_good = true ∧
        (truth_table c.found_cond c.all_cond
          (presence c.keywords c.ignore_keyword o.lines) → c.stay = true)) := by
  rw [(loop_body_ended c (init_state c) o).2.2.2.2.1, decision_iff]

theorem run_has_tick_iff (c : Config) (env : Nat → Obs) (r : Run)
    (hpos : 0 < c.interval_seconds) (h : main_loop c env = some r) (i : Nat) :
    i < r.ticks.length ↔
      (start_duration c + (i : Int) * c.interval_seconds ≤ c.timeout_seconds ∧
        ∀ j < i, (loop_body c (init_state c) (env j)).2.2 = none) := by
  obtain ⟨spec, hempty, hexp, _, _⟩ := main_loop_spec c env r h
  constructor
  · intro hi
    obtain ⟨e1, e2, _, _, _⟩ := spec i hi
    refine ⟨by rw [← e1]; exact e2, ?_⟩
    intro j hj
    exact (spec j (by omega)).2.2.2.1 (by omega)
  · rintro ⟨hd, hc⟩
    by_contra hn
    have hle : r.ticks.length ≤ i := by omega
    have hmul : (r.ticks.length : Int) * c.interval_seconds ≤ (i : Int) * c.interval_seconds :=
      mul_le_mul_of_nonneg_right (by exact_mod_cast hle) (le_of_lt hpos)
    have hexpired : r.ended = Ended.expired := by
      rcases Nat.eq_zero_or_pos r.ticks.length with h0 | h0
      · exact hempty (List.length_eq_zero.mp h0)
      · have hcont := hc (r.ticks.length - 1) (by omega)
        rcases run_last_tick c env r h (r.ticks.length - 1) (by omega) with h1 | h1
        · rw [hcont] at h1; cases h1
        · exact h1.2
    obtain ⟨h1, h2⟩ := hexp hexpired
    rw [h2] at h1
    omega

theorem run_executions (c : Config) (env : Nat → Obs) (r : Run)
    (h : main_loop c env = some r) (i : Nat) (hi : i < r.ticks.length) :
    executions r.ticks[i].events = if Triggers c (env i) then 1 else 0 := by
  rw [run_tick_events c env r h i hi, loop_body_executions]
  by_cases ht : Triggers c (env i)
  · rw [if_pos ht, if_pos ((condition_mem_iff_triggers c (env i)).mpr ht)]
  · rw [if_neg ht, if_neg (fun hm => ht ((condition_mem_iff_triggers c (env i)).mp hm))]

theorem run_executions_list (c : Config) (env : Nat → Obs) (r : Run)
    (h : main_loop c env = some r) :
    r.ticks.map (fun t => executions t.events) =
      (List.range r.ticks.length).map (fun i => if Triggers c (env i) then 1 else 0) := by
  apply List.ext_getElem
  · simp
  · intro i h1 h2
    have hi : i < r.ticks.length := by simpa using h1
    simp only [List.getElem_map, List.getElem_range]
    exact run_executions c env r h i hi

theorem stay_off_facts (c : Config) (env : Nat → Obs) (r : Run)
    (hr : main_loop c env = some r) (hstay : c.stay = false) :
      (r.ticks.map (fun t => executions t.events)).sum ≤ 1 ∧
      (∀ t ∈ r.ticks,
        executions t.events = if Event.condition true ∈ t.events then 1 else 0) ∧
      (∀ (i : Nat) (hi : i < r.ticks.length), Event.condition true ∈ r.ticks[i].events →
        executions r.ticks[i].events = 1 ∧ i + 1 = r.ticks.length ∧
        (∀ (j : Nat) (hj : j < r.ticks.length), j < i →
          Event.condition true ∉ r.ticks[j].events) ∧
        r.ended = Ended.triggered ∧ r.exit = Exit.status 0) := by
  obtain ⟨spec, _, _, _, _⟩ := main_loop_spec c env r hr
  have hex := run_exit c env r hr
  have hexec : ∀ t ∈ r.ticks,
      executions t.events = if Event.condition true ∈ t.events then 1 else 0 := by
    intro t ht
    obtain ⟨j, hj, rfl⟩ := List.getElem_of_mem ht
    rw [(spec j hj).2.2.1]
    exact loop_body_executions c (init_state c) (env j)
  have hlast : ∀ (i : Nat) (hi : i < r.ticks.length),
      Event.condition true ∈ r.ticks[i].events →
        i + 1 = r.ticks.length ∧ r.ended = Ended.triggered := by
    intro i hi hc
    obtain ⟨_, _, e3, e4, e5⟩ := spec i hi
    rw [e3] at hc
    have ht := loop_body_trigger_ends c (init_state c) (env i) hstay hc
    have hlen : i + 1 = r.ticks.length := by
      by_contra hne
      have := e4 (by omega)
      rw [this] at ht
      cases ht
    refine ⟨hlen, ?_⟩
    rcases e5 hlen with h5 | h5
    · rw [ht] at h5
      exact (Option.some.inj h5).symm
    · rw [ht] at h5
      cases h5.1
  refine ⟨?_, hexec, ?_⟩
  · apply sum_le_one_of_last
    · intro j hj hj2
      rw [hexec _ (List.getElem_mem hj)]
      split
      · rename_i hc
        have := (hlast j hj hc).1
        omega
      · rfl
    · intro t ht
      rw [hexec t ht]
      split <;> omega
  · intro i hi hc
    obtain ⟨h1, h2⟩ := hlast i hi hc
    refine ⟨by rw [hexec _ (List.getElem_mem hi), if_pos hc], h1, ?_, h2,
      hex.2.1.mpr (Or.inl h2)⟩
    intro j hj hji hcj
    have := (hlast j hj hcj).1
    omega

theorem stay_on_facts (c : Config) (env : Nat → Obs) (r : Run)
    (hr : main_loop c env = some r) (hstay : c.stay = true) :
      r.ended ≠ Ended.triggered ∧
      (∀ t ∈ r.ticks,
        executions t.events = if Event.condition true ∈ t.events then 1 else 0) ∧
      (r.ticks.map (fun t => executions t.events)).sum =
        (r.ticks.filter (fun t => decide (Event.condition true ∈ t.events))).length ∧
      ((r.ended ≠ Ended.parent_dead ∧ r.ended ≠ Ended.file_missing ∧
          r.ended ≠ Ended.exception) →
        r.ended = Ended.expired ∧ c.timeout_seconds < r.duration ∧
        r.exit = Exit.status 0) := by
  obtain ⟨spec, hempty, hexp, _, _⟩ := main_loop_spec c env r hr
  obtain ⟨_, x0, _⟩ := run_exit c env r hr
  have hexec : ∀ t ∈ r.ticks,
      executions t.events = if Event.condition true ∈ t.events then 1 else 0 := by
    intro t ht
    obtain ⟨j, hj, rfl⟩ := List.getElem_of_mem ht
    rw [run_tick_events c env r hr j hj]
    exact loop_body_executions c (init_state c) (env j)
  have hnt : r.ended ≠ Ended.triggered := by
    intro he
    obtain ⟨n, hn, hb⟩ := run_ended_not_expired c env r hr (by rw [he]; simp)
    rw [he] at hb
    have := ((loop_body_ended c (init_state c) (env n)).2.2.2.1.mp hb).2.2.1
    rw [hstay] at this
    cases this
  refine ⟨hnt, hexec, ?_, ?_⟩
  · apply sum_eq_length_filter
    intro t ht
    rw [hexec t ht]
    simp only [decide_eq_true_eq]
  · rintro ⟨h1, h2, h3⟩
    have he : r.ended = Ended.expired := by
      cases hre : r.ended
      · rfl
      · exact absurd hre hnt
      · exact absurd hre h1
      · exact absurd hre h2
      · exact absurd hre h3
    exact ⟨he, (hexp he).1, x0.mpr (Or.inr he)⟩

/-- C1: the trigger decision the loop computes is the truth table of the two flags
(all found, any found, all missing, any missing); a tick assigns `condition` exactly when
it gets past the liveness probe and the file check, the value assigned is the decision on
the vector of this tick's pass, and `main_execute` is called once when that value
is true and not at all otherwise. -/
theorem C1_trigger_truth_table (c : Config) (s : LoopState) (o : Obs) (found : List Bool)
    (status : Int) :
    ((evaluate c found status).1 = true ↔ truth_table c.found_cond c.all_cond found) ∧
    (∀ b : Bool, Event.condition b ∈ (loop_body c s o).1 ↔
      (Alive c o ∧ o.file_good = true ∧
        (evaluate c (file_pass c.keywords c.ignore_keyword s.found o.lines)
          o.system_status).1 = b)) ∧
    executions (loop_body c s o).1 =
      (if Event.condition true ∈ (loop_body c s o).1 then 1 else 0) :=
  ⟨evaluate_truth_table c found status, loop_body_condition_mem c s o,
    loop_body_executions c s o⟩

/-- C2: after one pass over the file (started from the vector the previous tick left, which
has one slot per keyword) the presence vector has one slot per keyword, and slot `i` is
true if and only if some line of the file contains keyword `i` as a substring and does not
contain the ignore token as a substring. -/
theorem C2_file_pass (keywords : List Str) (ignore_keyword : Str) (found : List Bool)
    (lines : List Str) (hlen : found.length = keywords.length) :
    (file_pass keywords ignore_keyword found lines).length = keywords.length ∧
    ∀ (i : Nat) (hi : i < keywords.length),
      ((file_pass keywords ignore_keyword found lines)[i]? = some true ↔
        ∃ line ∈ lines, keywords[i] <:+: line ∧ ¬ ignore_keyword <:+: line) := by
  refine ⟨by rw [file_pass_length, hlen], ?_⟩
  intro i hi
  rw [file_pass_get keywords ignore_keyword found lines i (by omega)]
  simp only [Option.some.injEq, decide_eq_true_eq, hi, true_and, List.getD_eq_getElem?_getD,
    List.getElem?_eq_getElem hi, Option.getD_some]

/-- C2 at a sample file: two keywords, the second of which only occurs on a line that
carries the ignore token. -/
theorem C2_file_pass_witness :
    [true, true].length = pass_keywords.length ∧
    (file_pass pass_keywords "<LW-ignore>".toList [true, true] pass_lines).length
      = pass_keywords.length ∧
    ∀ (i : Nat) (hi : i < pass_keywords.length),
      ((file_pass pass_keywords "<LW-ignore>".toList [true, true] pass_lines)[i]? = some true ↔
        ∃ line ∈ pass_lines, pass_keywords[i] <:+: line ∧ ¬ "<LW-ignore>".toList <:+: line) :=
  ⟨by decide, C2_file_pass pass_keywords "<LW-ignore>".toList [true, true] pass_lines (by decide)⟩

/-- C3: with `stay` off and a positive interval the loop returns.  Over the whole run
`main_execute` is called at most once; a tick calls it exactly when its evaluation
triggers; a tick whose evaluation triggers is the last tick of the loop, which is then left
by the `break` of line 491, and `main` returns 0.  In terms of what the ticks observe: the
tick of index `i` runs exactly when its `duration` is within the timeout and every tick
before it got to the evaluation without triggering; it assigns `condition` true exactly
when the specification's truth table holds of its file (and the probe and the file check
let it get there); so when tick `n` is the first whose evaluation triggers and it is within
the timeout, the run has `n + 1` ticks, `main_execute` is called at tick `n`, once, and at
no tick before, the loop is left by the `break` and `main` returns 0. -/
theorem C3_single_trigger (c : Config) (env : Nat → Obs) (hstay : c.stay = false)
    (hpos : 0 < c.interval_seconds) :
    ∃ r, main_loop c env = some r ∧
      (r.ticks.map (fun t => executions t.events)).sum ≤ 1 ∧
      (∀ t ∈ r.ticks,
        executions t.events = if Event.condition true ∈ t.events then 1 else 0) ∧
      (∀ (i : Nat) (hi : i < r.ticks.length), Event.condition true ∈ r.ticks[i].events →
        executions r.ticks[i].events = 1 ∧ i + 1 = r.ticks.length ∧
        (∀ (j : Nat) (hj : j < r.ticks.length), j < i →
          Event.condition true ∉ r.ticks[j].events) ∧
        r.ended = Ended.triggered ∧ r.exit = Exit.status 0) ∧
      (∀ i : Nat, i < r.ticks.length ↔
        (start_duration c + (i : Int) * c.interval_seconds ≤ c.timeout_seconds ∧
          ∀ j < i, Quiet c (env j))) ∧
      (∀ (i : Nat) (hi : i < r.ticks.length),
        (Event.condition true ∈ r.ticks[i].events ↔ Triggers c (env i)) ∧
        executions r.ticks[i].events = if Triggers c (env i) then 1 else 0) ∧
      (∀ n : Nat, (∀ j < n, Quiet c (env j)) → Triggers c (env n) →
        start_duration c + (n : Int) * c.interval_seconds ≤ c.timeout_seconds →
        r.ticks.map (fun t => executions t.events) = List.replicate n 0 ++ [1] ∧
        r.ended = Ended.triggered ∧ r.exit = Exit.status 0) := by
  obtain ⟨r, hr⟩ := main_loop_run c env hpos
  obtain ⟨f1, f2, f3⟩ := stay_off_facts c env r hr hstay
  have hquiet : ∀ j, (loop_body c (init_state c) (env j)).2.2 = none ↔ Quiet c (env j) := by
    intro j
    rw [loop_body_continues_iff, hstay]
    simp only [Quiet, Bool.false_eq_true, imp_false]
  have hticks : ∀ i : Nat, i < r.ticks.length ↔
      (start_duration c + (i : Int) * c.interval_seconds ≤ c.timeout_seconds ∧
        ∀ j < i, Quiet c (env j)) := by
    intro i
    rw [run_has_tick_iff c env r hpos hr i]
    constructor
    · rintro ⟨h1, h2⟩
      exact ⟨h1, fun j hj => (hquiet j).mp (h2 j hj)⟩
    · rintro ⟨h1, h2⟩
      exact ⟨h1, fun j hj => (hquiet j).mpr (h2 j hj)⟩
  have hcond : ∀ (i : Nat) (hi : i < r.ticks.length),
      (Event.condition true ∈ r.ticks[i].events ↔ Triggers c (env i)) := by
    intro i hi
    rw [run_tick_events c env r hr i hi]
    exact condition_mem_iff_triggers c (env i)
  refine ⟨r, hr, f1, f2, f3, hticks,
    fun i hi => ⟨hcond i hi, run_executions c env r hr i hi⟩, ?_⟩
  intro n hq ht hd
  have hn : n < r.ticks.length := (hticks n).mpr ⟨hd, hq⟩
  obtain ⟨_, hlen, _, hend, hexit⟩ := f3 n hn ((hcond n hn).mpr ht)
  refine ⟨?_, hend, hexit⟩
  rw [run_executions_list c env r hr, ← hlen, List.range_succ, List.map_append]
  congr 1
  · apply List.eq_replicate_iff.mpr
    refine ⟨by simp, ?_⟩
    intro b hb
    obtain ⟨j, hj, rfl⟩ := List.mem_map.mp hb
    rw [if_neg (fun h : Triggers c (env j) => (hq j (List.mem_range.mp hj)).2.2 h.2.2)]
  · simp only [List.map_cons, List.map_nil, if_pos ht]

/-- C3 on scenario A of the specification with the keyword in the file from the third tick
on: two quiet ticks, then the tick that triggers, which is the last. -/
theorem C3_single_trigger_witness :
    scenario_A.stay = false ∧ 0 < scenario_A.interval_seconds ∧
    ∃ r, main_loop scenario_A env_F = some r ∧
      r.ticks.map (fun t => executions t.events) = [0, 0, 1] ∧
      r.ended = Ended.triggered ∧ r.exit = Exit.status 0 := by
  refine ⟨rfl, by decide, ?_⟩
  obtain ⟨r, hr, _, _, _, _, _, h⟩ := C3_single_trigger scenario_A env_F rfl (by decide)
  exact ⟨r, hr, h 2 (by decide) (by decide) (by decide)⟩

/-- The bound on the shortest interval is needed: were `MIN_INTERVAL_SECOND` one second,
the single-shot forcing of lines 245-250 would let the body run twice at an interval of one
second when the first tick neither triggers nor aborts (`1 <= 1` with `--check-at-start`,
`2 <= 2` without). -/
theorem check_once_at_interval_one :
    once_cfg.check_once = true ∧
    (startup_normalise consts_min1 once_cfg).interval_seconds = 1 ∧
    (∃ r, main_loop (startup_normalise consts_min1 once_cfg) (fun _ => obs_quiet) = some r ∧
      r.ticks.length = 2) ∧
    (∃ r, main_loop (startup_normalise consts_min1 { once_cfg with check_at_start := true })
        (fun _ => obs_quiet) = some r ∧
      r.ticks.length = 2) := by
  refine ⟨rfl, by decide, ⟨_, rfl, by decide⟩, ⟨_, rfl, by decide⟩⟩

/-- C5: with a positive interval the loop returns, and `main` returns 1 exactly when the
loop was left at a tick that found the parent dead (empty output of the probe) or could
not open the watched file; when the loop is left by the `break` after a trigger or because
`duration` exceeds the timeout, `main` returns 0; so status 1 and expiry exclude each
other. -/
theorem C5_exit_status (c : Config) (env : Nat → Obs) (hpos : 0 < c.interval_seconds) :
    ∃ r, main_loop c env = some r ∧
      (r.exit = Exit.status 1 ↔ (r.ended = Ended.parent_dead ∨ r.ended = Ended.file_missing)) ∧
      (r.ended = Ended.parent_dead ↔
        ∃ n, r.ticks.length = n + 1 ∧ c.CHECK_PPID = true ∧ (env n).ps_output = some []) ∧
      (r.ended = Ended.file_missing ↔
        ∃ n, r.ticks.length = n + 1 ∧ Alive c (env n) ∧ (env n).file_good = false) ∧
      (r.ended = Ended.triggered ∨ r.ended = Ended.expired → r.exit = Exit.status 0) ∧
      (r.ended = Ended.expired → c.timeout_seconds < r.duration) ∧
      ¬ (r.exit = Exit.status 1 ∧ r.ended = Ended.expired) := by
  obtain ⟨r, hr⟩ := main_loop_run c env hpos
  obtain ⟨spec, hempty, hexp, _, _⟩ := main_loop_spec c env r hr
  obtain ⟨x1, x0, _⟩ := run_exit c env r hr
  refine ⟨r, hr, x1, ?_, ?_, x0.mpr, fun he => (hexp he).1, ?_⟩
  · constructor
    · intro he
      obtain ⟨n, hn, hb⟩ := run_ended_not_expired c env r hr (by rw [he]; simp)
      rw [he] at hb
      exact ⟨n, hn, (loop_body_ended c _ _).2.1.mp hb⟩
    · rintro ⟨n, hn, hc, ho⟩
      have hb := (loop_body_ended c (init_state c) (env n)).2.1.mpr ⟨hc, ho⟩
      rcases run_last_tick c env r hr n hn with h1 | h1
      · rw [hb] at h1; exact (Option.some.inj h1).symm
      · rw [hb] at h1; cases h1.1
  · constructor
    · intro he
      obtain ⟨n, hn, hb⟩ := run_ended_not_expired c env r hr (by rw [he]; simp)
      rw [he] at hb
      exact ⟨n, hn, (loop_body_ended c _ _).2.2.1.mp hb⟩
    · rintro ⟨n, hn, ha, hg⟩
      have hb := (loop_body_ended c (init_state c) (env n)).2.2.1.mpr ⟨ha, hg⟩
      rcases run_last_tick c env r hr n hn with h1 | h1
      · rw [hb] at h1; exact (Option.some.inj h1).symm
      · rw [hb] at h1; cases h1.1
  · rintro ⟨h1, h2⟩
    rcases x1.mp h1 with h3 | h3 <;> rw [h2] at h3 <;> cases h3

/-- C5 on scenario D of the specification: the file is gone at the second tick. -/
theorem C5_exit_status_witness :
    0 < scenario_A.interval_seconds ∧
    ∃ r, main_loop scenario_A env_D = some r ∧
      (r.exit = Exit.status 1 ↔ (r.ended = Ended.parent_dead ∨ r.ended = Ended.file_missing)) ∧
      (r.ended = Ended.parent_dead ↔
        ∃ n, r.ticks.length = n + 1 ∧ scenario_A.CHECK_PPID = true ∧
          (env_D n).ps_output = some []) ∧
      (r.ended = Ended.file_missing ↔
        ∃ n, r.ticks.length = n + 1 ∧ Alive scenario_A (env_D n) ∧
          (env_D n).file_good = false) ∧
      (r.ended = Ended.triggered ∨ r.ended = Ended.expired → r.exit = Exit.status 0) ∧
      (r.ended = Ended.expired → scenario_A.timeout_seconds < r.duration) ∧
      ¬ (r.exit = Exit.status 1 ∧ r.ended = Ended.expired) :=
  ⟨by decide, C5_exit_status scenario_A env_D (by decide)⟩

/-- C6, as stated, fails on scenario C of the specification: with `found_cond` false,
`all_cond` true and the keyword "READY" in no line of the file, the first tick assigns
`condition` true and calls `main_execute`, and the loop is left by the `break` after the
trigger, not by expiry. -/
theorem C6_counterexample :
    scenario_C.found_cond = false ∧ scenario_C.all_cond = true ∧
    scenario_C.keywords = ["READY".toList] ∧
    obs_A.file_good = true ∧ obs_A.ps_output = some " 4242\n".toList ∧
    (∀ line ∈ obs_A.lines, ¬ "READY".toList <:+: line) ∧
    ∃ r, main_loop scenario_C (fun _ => obs_A) = some r ∧
      r.ended = Ended.triggered ∧
      (r.ticks.map (fun t => t.events)) =
        [[Event.probe (some " 4242\n".toList), Event.file_exists true, Event.scan [false],
          Event.condition true, Event.execute 0 true]] ∧
      r.exit = Exit.status 0 := by
  refine ⟨rfl, rfl, rfl, rfl, rfl, by decide, _, rfl, by decide, by decide, by decide⟩

/-- C6 (amended): with `found_cond` false, `all_cond` true and a single keyword that is in
no line of the file at any tick, the file existing and the parent alive throughout, every
tick that runs assigns `condition` true and calls `main_execute` once, and `main` returns
0; with `stay` off the loop is left at the first tick by the `break` after the trigger
(or runs no tick at all when the first check is already past the timeout); with `stay` on
it is left by expiry, with `duration` above the timeout. -/
theorem C6_missing_keyword_triggers (c : Config) (env : Nat → Obs) (kw : Str)
    (hf : c.found_cond = false) (ha : c.all_cond = true) (hk : c.keywords = [kw])
    (henv : ∀ k, (env k).file_good = true ∧ Alive c (env k) ∧
      ∀ line ∈ (env k).lines, ¬ kw <:+: line)
    (hpos : 0 < c.interval_seconds) :
    ∃ r, main_loop c env = some r ∧
      (∀ t ∈ r.ticks, Event.condition true ∈ t.events ∧ executions t.events = 1) ∧
      r.exit = Exit.status 0 ∧
      (c.stay = false →
        (r.ticks.length = 1 ∧ r.ended = Ended.triggered) ∨
        (r.ticks = [] ∧ r.ended = Ended.expired ∧ c.timeout_seconds < start_duration c)) ∧
      (c.stay = true → r.ended = Ended.expired ∧ c.timeout_seconds < r.duration) := by
  obtain ⟨r, hr⟩ := main_loop_run c env hpos
  obtain ⟨spec, hempty, hexp, _, _⟩ := main_loop_spec c env r hr
  obtain ⟨_, x0, _⟩ := run_exit c env r hr
  have hdec : ∀ k, (evaluate c (file_pass c.keywords c.ignore_keyword (init_state c).found
      (env k).lines) (env k).system_status).1 = true := by
    intro k
    rw [evaluate_truth_table, hf, ha]
    apply file_pass_all_false
    intro kw1 hkw1
    rw [hk] at hkw1
    rw [List.mem_singleton.mp hkw1]
    exact (henv k).2.2
  have hcond : ∀ (j : Nat) (hj : j < r.ticks.length),
      Event.condition true ∈ r.ticks[j].events := by
    intro j hj
    rw [(spec j hj).2.2.1]
    exact (loop_body_condition_mem c _ _ true).mpr ⟨(henv j).2.1, (henv j).1, hdec j⟩
  have hend := run_ended_of_alive c env r hr (fun k => ⟨(henv k).1, (henv k).2.1⟩)
  refine ⟨r, hr, ?_, ?_, ?_, ?_⟩
  · intro t ht
    obtain ⟨j, hj, rfl⟩ := List.getElem_of_mem ht
    refine ⟨hcond j hj, ?_⟩
    have := loop_body_executions c (init_state c) (env j)
    rw [← (spec j hj).2.2.1] at this
    rw [this, if_pos (hcond j hj)]
  · rcases hend with h1 | h1
    · exact x0.mpr (Or.inl h1.1)
    · exact x0.mpr (Or.inr h1)
  · intro hs
    rcases Nat.eq_zero_or_pos r.ticks.length with h0 | h0
    · right
      have hnil := List.length_eq_zero.mp h0
      have he := hempty hnil
      have := hexp he
      rw [h0] at this
      exact ⟨hnil, he, by simpa using this.1.trans_eq this.2⟩
    · left
      have hb := loop_body_trigger_ends c (init_state c) (env 0) hs (by
        have := hcond 0 h0
        rwa [(spec 0 h0).2.2.1] at this)
      obtain ⟨_, _, _, e4, e5⟩ := spec 0 h0
      have hlen : r.ticks.length = 1 := by
        by_contra hne
        have := e4 (by omega)
        rw [this] at hb
        cases hb
      refine ⟨hlen, ?_⟩
      rcases e5 (by omega) with h5 | h5
      · rw [hb] at h5; exact (Option.some.inj h5).symm
      · rw [hb] at h5; cases h5.1
  · intro hs
    rcases hend with h1 | h1
    · rw [hs] at h1; cases h1.2
    · exact ⟨h1, (hexp h1).1⟩

/-- C6 (amended) on scenario C of the specification. -/
theorem C6_missing_keyword_triggers_witness :
    scenario_C.found_cond = false ∧ scenario_C.all_cond = true ∧
    scenario_C.keywords = ["READY".toList] ∧
    (∀ _k : Nat, obs_A.file_good = true ∧ Alive scenario_C obs_A ∧
      ∀ line ∈ obs_A.lines, ¬ "READY".toList <:+: line) ∧
    0 < scenario_C.interval_seconds ∧
    ∃ r, main_loop scenario_C (fun _ => obs_A) = some r ∧
      (∀ t ∈ r.ticks, Event.condition true ∈ t.events ∧ executions t.events = 1) ∧
      r.exit = Exit.status 0 ∧
      (scenario_C.stay = false →
        (r.ticks.length = 1 ∧ r.ended = Ended.triggered) ∨
        (r.ticks = [] ∧ r.ended = Ended.expired ∧
          scenario_C.timeout_seconds < start_duration scenario_C)) ∧
      (scenario_C.stay = true → r.ended = Ended.expired ∧
        scenario_C.timeout_seconds < r.duration) :=
  have henv : ∀ _k : Nat, obs_A.file_good = true ∧ Alive scenario_C obs_A ∧
      ∀ line ∈ obs_A.lines, ¬ "READY".toList <:+: line :=
    fun _ => ⟨rfl, fun _ => ⟨_, rfl, by decide⟩, by decide⟩
  ⟨rfl, rfl, rfl, henv, by decide,
    C6_missing_keyword_triggers scenario_C (fun _ => obs_A) "READY".toList rfl rfl rfl henv
      (by decide)⟩

/-- C7, as stated, fails at a tick the liveness probe ends: with liveness checking on, at a
tick where the file cannot be opened and the probe prints nothing, the only event is the
probe (no `file_exists` call is made, the file check is skipped); and at a tick where the
file cannot be opened and `popen` fails in the probe, the process ends by the uncaught
exception and not with status 1. -/
theorem C7_counterexample :
    scenario_A.CHECK_PPID = true ∧ obs_dead_missing.file_good = false ∧
    obs_popen_missing.file_good = false ∧
    (∃ r, main_loop scenario_A (fun _ => obs_dead_missing) = some r ∧
      r.ticks.map (fun t => t.events) = [[Event.probe (some [])]] ∧
      r.exit = Exit.status 1) ∧
    (∃ r, main_loop scenario_A (fun _ => obs_popen_missing) = some r ∧
      r.ticks.map (fun t => t.events) = [[Event.probe none]] ∧
      r.exit = Exit.uncaught) := by
  refine ⟨rfl, rfl, rfl, ⟨_, rfl, by decide, by decide⟩, ⟨_, rfl, by decide, by decide⟩⟩

/-- C7 (amended): with a positive interval the loop returns, and at every tick that runs:
`file_exists` is called exactly when the liveness probe lets the tick go on (liveness
checking off, or a probe that ran and printed something); and if the file cannot be opened
the tick is the last one, it does no keyword matching and does not call `main_execute`,
and `main` returns 1, unless `popen` failed in the probe of that tick, in which case the
process ends by the uncaught exception. -/
theorem C7_file_missing_aborts (c : Config) (env : Nat → Obs)
    (hpos : 0 < c.interval_seconds) :
    ∃ r, main_loop c env = some r ∧
      ∀ (i : Nat) (hi : i < r.ticks.length),
        ((∃ g, Event.file_exists g ∈ r.ticks[i].events) ↔ Alive c (env i)) ∧
        ((env i).file_good = false →
          i + 1 = r.ticks.length ∧
          (∀ f, Event.scan f ∉ r.ticks[i].events) ∧
          executions r.ticks[i].events = 0 ∧
          r.exit =
            (if c.CHECK_PPID = true ∧ (env i).ps_output = none then Exit.uncaught
             else Exit.status 1)) := by
  obtain ⟨r, hr⟩ := main_loop_run c env hpos
  obtain ⟨x1, _, xu⟩ := run_exit c env r hr
  refine ⟨r, hr, ?_⟩
  intro i hi
  rw [run_tick_events c env r hr i hi]
  refine ⟨loop_body_file_check c _ _, ?_⟩
  intro hg
  obtain ⟨h1, h2, e, h3, h4, h5⟩ := loop_body_file_missing c (init_state c) (env i) hg
  obtain ⟨hlen, hend⟩ := run_tick_ends c env r hr i hi e h3
  refine ⟨hlen, h1, h2, ?_⟩
  split
  · rename_i hc
    exact xu.mpr (by rw [hend]; exact h5.mpr hc)
  · rename_i hc
    apply x1.mpr
    rw [hend]
    rcases h4 with h6 | h6 | h6
    · exact absurd (h5.mp h6) hc
    · exact Or.inl h6
    · exact Or.inr h6

/-- C7 (amended) on scenario D of the specification: the file is gone at the second
tick. -/
theorem C7_file_missing_aborts_witness :
    0 < scenario_A.interval_seconds ∧
    ∃ r, main_loop scenario_A env_D = some r ∧
      ∀ (i : Nat) (hi : i < r.ticks.length),
        ((∃ g, Event.file_exists g ∈ r.ticks[i].events) ↔ Alive scenario_A (env_D i)) ∧
        ((env_D i).file_good = false →
          i + 1 = r.ticks.length ∧
          (∀ f, Event.scan f ∉ r.ticks[i].events) ∧
          executions r.ticks[i].events = 0 ∧
          r.exit =
            (if scenario_A.CHECK_PPID = true ∧ (env_D i).ps_output = none then Exit.uncaught
             else Exit.status 1)) :=
  ⟨by decide, C7_file_missing_aborts scenario_A env_D (by decide)⟩

/-- C8: with liveness checking on (and a positive interval) the loop returns, and at every
tick that runs the first event is the probe, before the file check and before anything
else, and no second probe follows; if the probe prints nothing, the probe is the only event
of that tick (no `file_exists` call, no pass over the file, no `main_execute`), whether or
not the file can be opened, the tick is the last one, the loop is left by the `break` of
line 415 and `main` returns 1; when this happens at the first tick, no tick of the run
makes a pass over the file. -/
theorem C8_dead_parent_aborts (c : Config) (env : Nat → Obs) (hcheck : c.CHECK_PPID = true)
    (hpos : 0 < c.interval_seconds) :
    ∃ r, main_loop c env = some r ∧
      (∀ (i : Nat) (hi : i < r.ticks.length),
        (∃ rest, r.ticks[i].events = Event.probe (env i).ps_output :: rest ∧
          ∀ e ∈ rest, ∀ out, e ≠ Event.probe out) ∧
        ((env i).ps_output = some [] →
          r.ticks[i].events = [Event.probe (some [])] ∧ i + 1 = r.ticks.length ∧
          r.ended = Ended.parent_dead ∧ r.exit = Exit.status 1)) ∧
      ((env 0).ps_output = some [] → ∀ t ∈ r.ticks, ∀ f, Event.scan f ∉ t.events) := by
  obtain ⟨r, hr⟩ := main_loop_run c env hpos
  obtain ⟨x1, _, _⟩ := run_exit c env r hr
  have hdead : ∀ (i : Nat) (hi : i < r.ticks.length), (env i).ps_output = some [] →
      r.ticks[i].events = [Event.probe (some [])] ∧ i + 1 = r.ticks.length ∧
      r.ended = Ended.parent_dead ∧ r.exit = Exit.status 1 := by
    intro i hi ho
    have hb := (loop_body_ended c (init_state c) (env i)).2.1.mpr ⟨hcheck, ho⟩
    obtain ⟨hlen, hend⟩ := run_tick_ends c env r hr i hi _ hb
    refine ⟨?_, hlen, hend, x1.mpr (Or.inl hend)⟩
    rw [run_tick_events c env r hr i hi]
    exact loop_body_dead c _ _ hcheck ho
  refine ⟨r, hr, ?_, ?_⟩
  · intro i hi
    refine ⟨?_, hdead i hi⟩
    rw [run_tick_events c env r hr i hi]
    exact loop_body_probe_first c _ _ hcheck
  · intro ho t ht f
    obtain ⟨j, hj, rfl⟩ := List.getElem_of_mem ht
    have h0 : 0 < r.ticks.length := by omega
    obtain ⟨_, hlen, _, _⟩ := hdead 0 h0 ho
    have hj0 : j = 0 := by omega
    subst hj0
    rw [(hdead 0 h0 ho).1]
    simp

/-- C8 on scenario E of the specification: the parent is dead at the first tick. -/
theorem C8_dead_parent_aborts_witness :
    scenario_A.CHECK_PPID = true ∧ 0 < scenario_A.interval_seconds ∧
    ∃ r, main_loop scenario_A env_E = some r ∧
      (∀ (i : Nat) (hi : i < r.ticks.length),
        (∃ rest, r.ticks[i].events = Event.probe (env_E i).ps_output :: rest ∧
          ∀ e ∈ rest, ∀ out, e ≠ Event.probe out) ∧
        ((env_E i).ps_output = some [] →
          r.ticks[i].events = [Event.probe (some [])] ∧ i + 1 = r.ticks.length ∧
          r.ended = Ended.parent_dead ∧ r.exit = Exit.status 1)) ∧
      ((env_E 0).ps_output = some [] → ∀ t ∈ r.ticks, ∀ f, Event.scan f ∉ t.events) :=
  ⟨rfl, by decide, C8_dead_parent_aborts scenario_A env_E rfl (by decide)⟩

/-- C9: the loop does not read the status of the command.  With a positive interval the
loop returns, and two runs on the same configuration and the same observations of
liveness and file, in which `std::system` returns different statuses, have the same ticks
at the same values of `duration`, do the same things at each tick (`main_execute` is
called at the same places), leave the loop in the same way and end the process in the same
way. -/
theorem C9_status_independent (c : Config) (env : Nat → Obs) (σ σ' : Nat → Int)
    (hpos : 0 < c.interval_seconds) :
    ∃ r r', main_loop c (with_status env σ) = some r ∧
      main_loop c (with_status env σ') = some r' ∧
      r.forget_status = r'.forget_status ∧
      r.ticks.length = r'.ticks.length ∧
      r.ticks.map (fun t => executions t.events) =
        r'.ticks.map (fun t => executions t.events) ∧
      r.exit = r'.exit := by
  obtain ⟨lr, hl, hr⟩ := main_loop_returns c (with_status env σ) hpos
  obtain ⟨lr', hl', hr'⟩ := main_loop_returns c (with_status env σ') hpos
  have hs := for_loop_status c env σ σ' (fuel_bound c) 0 (init_state c)
  rw [hl, hl'] at hs
  simp only [Option.map_some', Option.some.injEq] at hs
  have hf : (finish c lr).forget_status = (finish c lr').forget_status := by
    rw [finish_forget_status, finish_forget_status, hs]
  have ht : (finish c lr).ticks.map TickLog.forget_status =
      (finish c lr').ticks.map TickLog.forget_status := congrArg Run.ticks hf
  have hx : (finish c lr).exit = (finish c lr').exit := by
    have h1 : (finish c lr).forget_status.exit = (finish c lr').forget_status.exit := by
      rw [hf]
    exact h1
  refine ⟨_, _, hr, hr', hf, ?_, ?_, hx⟩
  · have := congrArg List.length ht
    simpa using this
  · have := congrArg (List.map (fun t : TickLog => executions t.events)) ht
    have hcomp : ((fun t : TickLog => executions t.events) ∘ TickLog.forget_status) =
        (fun t : TickLog => executions t.events) := by
      funext t
      simp only [Function.comp, TickLog.forget_status, executions_forget_status]
    simpa only [List.map_map, hcomp] using this

/-- C9 on scenario A of the specification, the command failing at every tick in one run
and succeeding in the other. -/
theorem C9_status_independent_witness :
    0 < scenario_A.interval_seconds ∧
    ∃ r r', main_loop scenario_A (with_status (fun _ => obs_A) failing) = some r ∧
      main_loop scenario_A (with_status (fun _ => obs_A) succeeding) = some r' ∧
      r.forget_status = r'.forget_status ∧
      r.ticks.length = r'.ticks.length ∧
      r.ticks.map (fun t => executions t.events) =
        r'.ticks.map (fun t => executions t.events) ∧
      r.exit = r'.exit :=
  ⟨by decide, C9_status_independent scenario_A (fun _ => obs_A) failing succeeding (by decide)⟩

/-- C10: with `stay` on and a positive interval the loop returns.  Every tick calls
`main_execute` once when its evaluation triggers and not at all otherwise, so the number of
calls in the run is the number of ticks whose evaluation triggers; the loop is never left
by the `break` after a trigger; and when it is not left by an abort (parent dead, file
missing, exception from the probe) it is left by expiry, with `duration` above the timeout,
and `main` returns 0.  In terms of what the ticks observe: the tick of index `i` runs
exactly when its `duration` is within the timeout and no tick before it aborted, whether or
not one of them triggered; it calls `main_execute` once when the specification's truth
table holds of its file (and the probe and the file check let it get there) and not at all
otherwise; and when no tick within the timeout aborts, the loop is left by expiry and
`main` returns 0. -/
theorem C10_stay_mode (c : Config) (env : Nat → Obs) (hstay : c.stay = true)
    (hpos : 0 < c.interval_seconds) :
    ∃ r, main_loop c env = some r ∧
      r.ended ≠ Ended.triggered ∧
      (∀ t ∈ r.ticks,
        executions t.events = if Event.condition true ∈ t.events then 1 else 0) ∧
      (r.ticks.map (fun t => executions t.events)).sum =
        (r.ticks.filter (fun t => decide (Event.condition true ∈ t.events))).length ∧
      ((r.ended ≠ Ended.parent_dead ∧ r.ended ≠ Ended.file_missing ∧
          r.ended ≠ Ended.exception) →
        r.ended = Ended.expired ∧ c.timeout_seconds < r.duration ∧
        r.exit = Exit.status 0) ∧
      (∀ i : Nat, i < r.ticks.length ↔
        (start_duration c + (i : Int) * c.interval_seconds ≤ c.timeout_seconds ∧
          ∀ j < i, Alive c (env j) ∧ (env j).file_good = true)) ∧
      (∀ (i : Nat) (hi : i < r.ticks.length),
        (Event.condition true ∈ r.ticks[i].events ↔ Triggers c (env i)) ∧
        executions r.ticks[i].events = if Triggers c (env i) then 1 else 0) ∧
      r.ticks.map (fun t => executions t.events) =
        (List.range r.ticks.length).map (fun i => if Triggers c (env i) then 1 else 0) ∧
      ((∀ j : Nat, start_duration c + (j : Int) * c.interval_seconds ≤ c.timeout_seconds →
          Alive c (env j) ∧ (env j).file_good = true) →
        r.ended = Ended.expired ∧ c.timeout_seconds < r.duration ∧
        r.exit = Exit.status 0) := by
  obtain ⟨r, hr⟩ := main_loop_run c env hpos
  obtain ⟨f1, f2, f3, f4⟩ := stay_on_facts c env r hr hstay
  obtain ⟨spec, _, _, _, _⟩ := main_loop_spec c env r hr
  have hcont : ∀ j, (loop_body c (init_state c) (env j)).2.2 = none ↔
      (Alive c (env j) ∧ (env j).file_good = true) := by
    intro j
    rw [loop_body_continues_iff, hstay]
    simp only [implies_true, and_true]
  have hticks : ∀ i : Nat, i < r.ticks.length ↔
      (start_duration c + (i : Int) * c.interval_seconds ≤ c.timeout_seconds ∧
        ∀ j < i, Alive c (env j) ∧ (env j).file_good = true) := by
    intro i
    rw [run_has_tick_iff c env r hpos hr i]
    constructor
    · rintro ⟨h1, h2⟩
      exact ⟨h1, fun j hj => (hcont j).mp (h2 j hj)⟩
    · rintro ⟨h1, h2⟩
      exact ⟨h1, fun j hj => (hcont j).mpr (h2 j hj)⟩
  have hcond : ∀ (i : Nat) (hi : i < r.ticks.length),
      (Event.condition true ∈ r.ticks[i].events ↔ Triggers c (env i)) := by
    intro i hi
    rw [run_tick_events c env r hr i hi]
    exact condition_mem_iff_triggers c (env i)
  refine ⟨r, hr, f1, f2, f3, f4, hticks,
    fun i hi => ⟨hcond i hi, run_executions c env r hr i hi⟩,
    run_executions_list c env r hr, ?_⟩
  intro hall
  apply f4
  have hne : ∀ e : Ended, e ≠ Ended.expired → e ≠ Ended.triggered → r.ended ≠ e := by
    intro e he1 he2 hre
    obtain ⟨n, hn, hb⟩ := run_ended_not_expired c env r hr (by rw [hre]; exact he1)
    obtain ⟨d1, d2, _⟩ := spec n (by omega)
    rw [d1] at d2
    have := (hcont n).mpr (hall n d2)
    rw [this] at hb
    cases hb
  exact ⟨hne _ (by decide) (by decide), hne _ (by decide) (by decide),
    hne _ (by decide) (by decide)⟩

/-- C10 on scenario F of the specification: the keyword is in the file at ticks 2 and 5
only; six ticks run, `main_execute` is called at ticks 2 and 5 and at no other tick, twice
in all, and the loop is left by expiry. -/
theorem C10_stay_mode_witness :
    scenario_F.stay = true ∧ 0 < scenario_F.interval_seconds ∧
    ∃ r, main_loop scenario_F env_F = some r ∧
      r.ticks.map (fun t => executions t.events) = [0, 0, 1, 0, 0, 1] ∧
      (r.ticks.map (fun t => executions t.events)).sum = 2 ∧
      r.ended = Ended.expired ∧ scenario_F.timeout_seconds < r.duration ∧
      r.exit = Exit.status 0 := by
  refine ⟨rfl, by decide, ?_⟩
  obtain ⟨r, hr, _, _, _, _, hticks, _, hlist, hexp⟩ :=
    C10_stay_mode scenario_F env_F rfl (by decide)
  have h5 : 5 < r.ticks.length := (hticks 5).mpr (by decide)
  have h6 : ¬ 6 < r.ticks.length := fun h => absurd ((hticks 6).mp h).1 (by decide)
  have hlen : r.ticks.length = 6 := by omega
  have hex : r.ticks.map (fun t => executions t.events) = [0, 0, 1, 0, 0, 1] := by
    rw [hlist, hlen]
    decide
  have hall : ∀ j : Nat,
      start_duration scenario_F + (j : Int) * scenario_F.interval_seconds
        ≤ scenario_F.timeout_seconds →
      Alive scenario_F (env_F j) ∧ (env_F j).file_good = true := by
    intro j _
    unfold env_F
    split <;> decide
  exact ⟨r, hr, hex, by rw [hex]; rfl, hexp hall⟩

/-- Scenario F of the specification, evaluated: six ticks, `main_execute` called at ticks 2
and 5 and nowhere else, the loop left by expiry at `duration` 70. -/
theorem scenario_F_run :
    ∃ r, main_loop scenario_F env_F = some r ∧
      r.ticks.map (fun t => executions t.events) = [0, 0, 1, 0, 0, 1] ∧
      r.ended = Ended.expired ∧ r.duration = 70 ∧ r.exit = Exit.status 0 :=
  ⟨_, rfl, by decide, by decide, by decide, by decide⟩

/-- C11, as stated, fails for the timeout.  In single-shot mode without `--check-at-start`
an interval input above `MAX_TIMEOUT_SECOND` is clamped to `MAX_TIMEOUT_SECOND` and the
timeout is set to the interval plus one, which is above `MAX_TIMEOUT_SECOND`.  And the
order `MIN_INTERVAL <= MAX_INTERVAL <= MAX_TIMEOUT` alone does not keep the timeout at or
above zero: with negative constants a timeout that was not given becomes the negative
`MAX_TIMEOUT_SECOND`. -/
theorem C11_counterexample :
    consts_min1.MIN_INTERVAL_SECOND ≤ consts_min1.MAX_INTERVAL_SECOND ∧
    consts_min1.MAX_INTERVAL_SECOND ≤ consts_min1.MAX_TIMEOUT_SECOND ∧
    ({ once_cfg with interval_seconds := 100000 } : Config).check_once = true ∧
    (startup_normalise consts_min1
        { once_cfg with interval_seconds := 100000 }).interval_seconds = 86400 ∧
    (startup_normalise consts_min1
        { once_cfg with interval_seconds := 100000 }).timeout_seconds = 86401 ∧
    consts_min1.MAX_TIMEOUT_SECOND = 86400 ∧
    consts_negative.MIN_INTERVAL_SECOND ≤ consts_negative.MAX_INTERVAL_SECOND ∧
    consts_negative.MAX_INTERVAL_SECOND ≤ consts_negative.MAX_TIMEOUT_SECOND ∧
    ({ scenario_A with timeout_seconds := -1 } : Config).check_once = false ∧
    (startup_normalise consts_negative
        { scenario_A with timeout_seconds := -1 }).timeout_seconds = -1 := by
  decide

/-- C11 (amended): assuming `0 <= MIN_INTERVAL <= MAX_INTERVAL <= MAX_TIMEOUT`, after the
start-up normalisation of any interval and timeout: in repeating mode the interval is in
`[MIN_INTERVAL, MAX_INTERVAL]` and the timeout in `[0, MAX_TIMEOUT]`; in single-shot mode
the interval is in `[MIN_INTERVAL, MAX_TIMEOUT]` and the timeout is 1 (with
`--check-at-start`) or the interval plus one, hence in `[1, MAX_TIMEOUT + 1]`. -/
theorem C11_clamping (k : Consts) (c : Config)
    (h0 : 0 ≤ k.MIN_INTERVAL_SECOND)
    (h1 : k.MIN_INTERVAL_SECOND ≤ k.MAX_INTERVAL_SECOND)
    (h2 : k.MAX_INTERVAL_SECOND ≤ k.MAX_TIMEOUT_SECOND) :
    (c.check_once = false →
      k.MIN_INTERVAL_SECOND ≤ (startup_normalise k c).interval_seconds ∧
      (startup_normalise k c).interval_seconds ≤ k.MAX_INTERVAL_SECOND ∧
      0 ≤ (startup_normalise k c).timeout_seconds ∧
      (startup_normalise k c).timeout_seconds ≤ k.MAX_TIMEOUT_SECOND) ∧
    (c.check_once = true →
      k.MIN_INTERVAL_SECOND ≤ (startup_normalise k c).interval_seconds ∧
      (startup_normalise k c).interval_seconds ≤ k.MAX_TIMEOUT_SECOND ∧
      (startup_normalise k c).timeout_seconds =
        (if c.check_at_start then 1 else (startup_normalise k c).interval_seconds + 1) ∧
      1 ≤ (startup_normalise k c).timeout_seconds ∧
      (startup_normalise k c).timeout_seconds ≤ k.MAX_TIMEOUT_SECOND + 1) := by
  constructor
  · intro honce
    simp only [startup_normalise, honce, Bool.not_false, Bool.and_true, Bool.and_false,
      Bool.false_eq_true, if_false, decide_eq_true_eq, gt_iff_lt]
    refine ⟨?_, ?_, ?_, ?_⟩ <;> (repeat' split) <;> omega
  · intro honce
    have ht := (startup_normalise_once k c honce).2.2
    have hi : k.MIN_INTERVAL_SECOND ≤ (startup_normalise k c).interval_seconds ∧
        (startup_normalise k c).interval_seconds ≤ k.MAX_TIMEOUT_SECOND := by
      simp only [startup_normalise, honce, Bool.not_true, Bool.and_true, Bool.and_false,
        Bool.false_eq_true, if_false, if_true, decide_eq_true_eq, gt_iff_lt]
      constructor <;> (repeat' split) <;> omega
    refine ⟨hi.1, hi.2, ht, ?_, ?_⟩
    · rw [ht]; split <;> omega
    · rw [ht]; split <;> omega

/-- C11 (amended) on the constants with a shortest interval of one second and scenario A. -/
theorem C11_clamping_witness :
    0 ≤ consts_min1.MIN_INTERVAL_SECOND ∧
    consts_min1.MIN_INTERVAL_SECOND ≤ consts_min1.MAX_INTERVAL_SECOND ∧
    consts_min1.MAX_INTERVAL_SECOND ≤ consts_min1.MAX_TIMEOUT_SECOND ∧
    (scenario_A.check_once = false →
      consts_min1.MIN_INTERVAL_SECOND ≤ (startup_normalise consts_min1 scenario_A).interval_seconds ∧
      (startup_normalise consts_min1 scenario_A).interval_seconds ≤
        consts_min1.MAX_INTERVAL_SECOND ∧
      0 ≤ (startup_normalise consts_min1 scenario_A).timeout_seconds ∧
      (startup_normalise consts_min1 scenario_A).timeout_seconds ≤
        consts_min1.MAX_TIMEOUT_SECOND) :=
  ⟨by decide, by decide, by decide,
    (C11_clamping consts_min1 scenario_A (by decide) (by decide) (by decide)).1⟩

/-- C12, as stated, fails for a negative number of minutes: `-t -5` in repeating mode gives
an effective timeout of 300 seconds (the absolute value is taken, line 164), not
`MAX_TIMEOUT_SECOND`. -/
theorem C12_counterexample :
    ∃ v, parse_args consts_min1 defaults_plain ["-t".toList, "-5".toList] false
        (Parsed.init defaults_plain) = Parse.proceed v ∧
      v.check_once = false ∧
      (startup_normalise consts_min1
        (parsed_config defaults_plain "./logwatcher".toList v v.keywords)).timeout_seconds
          = 300 ∧
      consts_min1.MAX_TIMEOUT_SECOND = 86400 :=
  ⟨_, rfl, by decide, by decide, by decide⟩

/-- C12 (amended): in repeating mode the effective timeout is `MAX_TIMEOUT_SECOND` when
the timeout option was not given (the variable is still `-1`) or was given with zero
minutes; given with a negative number `-m` of minutes with `60 * m <= 2147483647` (the
product is an `int`) it is `60 * m` seconds, clamped to `MAX_TIMEOUT_SECOND`. -/
theorem C12_default_timeout (k : Consts) (c : Config) (honce : c.check_once = false) :
    (c.timeout_seconds = -1 →
      (startup_normalise k c).timeout_seconds = k.MAX_TIMEOUT_SECOND) ∧
    (c.timeout_seconds = timeout_option k 0 →
      (startup_normalise k c).timeout_seconds = k.MAX_TIMEOUT_SECOND) ∧
    (∀ m : Int, 0 < m → 60 * m ≤ INT_MAX → c.timeout_seconds = timeout_option k (-m) →
      (startup_normalise k c).timeout_seconds = min (60 * m) k.MAX_TIMEOUT_SECOND) := by
  have hn : (startup_normalise k c).timeout_seconds =
      (if c.timeout_seconds < 0 then k.MAX_TIMEOUT_SECOND
       else if c.timeout_seconds > k.MAX_TIMEOUT_SECOND then k.MAX_TIMEOUT_SECOND
       else c.timeout_seconds) := by
    simp [startup_normalise, honce]
  refine ⟨?_, ?_, ?_⟩
  · intro h
    rw [hn, h]
    simp
  · intro h
    rw [hn, h, timeout_option_zero]
    split
    · rfl
    · split <;> rfl
  · intro m hm hr h
    rw [hn, h, timeout_option_neg k m hm hr]
    rw [if_neg (by omega)]
    split
    · rw [min_eq_right (by omega)]
    · rw [min_eq_left (by omega)]

/-- C12 (amended) on scenario A, with the timeout option not given and with `-t -5`. -/
theorem C12_default_timeout_witness :
    ({ scenario_A with timeout_seconds := -1 } : Config).check_once = false ∧
    (startup_normalise consts_min1 { scenario_A with timeout_seconds := -1 }).timeout_seconds
      = consts_min1.MAX_TIMEOUT_SECOND ∧
    (startup_normalise consts_min1
      { scenario_A with timeout_seconds := timeout_option consts_min1 (-5) }).timeout_seconds
      = min (60 * 5) consts_min1.MAX_TIMEOUT_SECOND :=
  ⟨rfl, (C12_default_timeout consts_min1 { scenario_A with timeout_seconds := -1 } rfl).1 rfl,
    (C12_default_timeout consts_min1
      { scenario_A with timeout_seconds := timeout_option consts_min1 (-5) } rfl).2.2 5
      (by decide) (by decide) rfl⟩

/-- C14: when the arguments before `arg` are scanned to their end without stopping the
scan (so that the scan reaches `arg` as an option name): if `arg` is not a recognised
option name, or if it is an option that takes a value and is the last argument, `main`
returns 1 before any start-up call and before the loop; if it is `-h`, `--help`, `-V` or
`--version`, `main` returns 0 there. -/
theorem C14_parse_errors (k : Consts) (d : Defaults) (argv0 : Str) (pre : List Str)
    (arg : Str) (rest : List Str) (o : StartObs) (env : Nat → Obs) (v : Parsed)
    (hpre : parse_args k d pre false (Parsed.init d) = Parse.proceed v) :
    (arg ∉ option_names →
      main k d argv0 (pre ++ arg :: rest) o env
        = some (Outcome.before_loop (Exit.status 1) [])) ∧
    (arg ∈ value_options →
      main k d argv0 (pre ++ [arg]) o env
        = some (Outcome.before_loop (Exit.status 1) [])) ∧
    (arg ∈ exit_options →
      main k d argv0 (pre ++ arg :: rest) o env
        = some (Outcome.before_loop (Exit.status 0) [])) := by
  have happ : ∀ tail, parse_args k d (pre ++ tail) false (Parsed.init d) =
      parse_args k d tail false v :=
    fun tail => parse_args_append k d tail pre false _ v (fun h => by cases h) hpre
  refine ⟨?_, ?_, ?_⟩
  · intro h
    unfold main
    rw [happ]
    simp only [parse_args, parse_arg_unknown k d arg rest v h]
  · intro h
    unfold main
    rw [happ]
    simp only [parse_args, parse_arg_missing_value k d arg v h]
  · intro h
    unfold main
    rw [happ]
    simp only [parse_args, parse_arg_exit_option k d arg rest v h]

/-- C14 after the arguments `-c ERROR --stay`, at the unknown argument `--bogus`. -/
theorem C14_parse_errors_witness :
    ∃ v, parse_args consts_min5 defaults_plain ["-c".toList, "ERROR".toList, "--stay".toList]
        false (Parsed.init defaults_plain) = Parse.proceed v ∧
      "--bogus".toList ∉ option_names ∧
      main consts_min5 defaults_plain sample_argv0
        (["-c".toList, "ERROR".toList, "--stay".toList] ++ "--bogus".toList :: ["-v".toList])
        start_ok (fun _ => obs_A) = some (Outcome.before_loop (Exit.status 1) []) :=
  ⟨_, rfl, by decide,
    (C14_parse_errors consts_min5 defaults_plain sample_argv0
      ["-c".toList, "ERROR".toList, "--stay".toList] "--bogus".toList ["-v".toList] start_ok
      (fun _ => obs_A) _ rfl).1 (by decide)⟩

/-- C15: with a positive interval `I` and a timeout `T` that is not negative the loop
returns; the tick of index `j` runs at `duration = j * I` with `--check-at-start` and at
`(j + 1) * I` without, so `duration` is a multiple of `I` and is `I` more at each
tick; every tick runs at a `duration` of at most `T`; and the number of ticks is at most
`floor(T / I) + 1`. -/
theorem C15_elapsed (c : Config) (env : Nat → Obs) (hpos : 0 < c.interval_seconds)
    (hT : 0 ≤ c.timeout_seconds) :
    ∃ r, main_loop c env = some r ∧
      (∀ (j : Nat) (hj : j < r.ticks.length),
        r.ticks[j].duration =
          (if c.check_at_start then (j : Int) * c.interval_seconds
           else ((j : Int) + 1) * c.interval_seconds) ∧
        c.interval_seconds ∣ r.ticks[j].duration ∧
        r.ticks[j].duration ≤ c.timeout_seconds) ∧
      (∀ (j : Nat) (hj : j + 1 < r.ticks.length),
        r.ticks[j + 1].duration = r.ticks[j].duration + c.interval_seconds) ∧
      (r.ticks.length : Int) ≤ c.timeout_seconds / c.interval_seconds + 1 := by
  obtain ⟨r, hr⟩ := main_loop_run c env hpos
  obtain ⟨spec, _, _, _, _⟩ := main_loop_spec c env r hr
  have hd : ∀ (j : Nat) (hj : j < r.ticks.length),
      r.ticks[j].duration =
        (if c.check_at_start then (j : Int) * c.interval_seconds
         else ((j : Int) + 1) * c.interval_seconds) := by
    intro j hj
    rw [(spec j hj).1]
    unfold start_duration
    split
    · ring
    · ring
  refine ⟨r, hr, ?_, ?_, ?_⟩
  · intro j hj
    refine ⟨hd j hj, ?_, (spec j hj).2.1⟩
    rw [hd j hj]
    split
    · exact Dvd.intro_left _ rfl
    · exact Dvd.intro_left _ rfl
  · intro j hj
    rw [(spec (j + 1) hj).1, (spec j (by omega)).1]
    push_cast
    ring
  · rcases Nat.eq_zero_or_pos r.ticks.length with h0 | h0
    · rw [h0]
      have : 0 ≤ c.timeout_seconds / c.interval_seconds :=
        Int.ediv_nonneg hT (le_of_lt hpos)
      simp only [Nat.cast_zero]
      omega
    · have hl := (spec (r.ticks.length - 1) (by omega)).2.1
      rw [hd (r.ticks.length - 1) (by omega)] at hl
      have hc : ((r.ticks.length - 1 : Nat) : Int) = (r.ticks.length : Int) - 1 := by omega
      rw [hc] at hl
      have hle : ((r.ticks.length : Int) - 1) * c.interval_seconds ≤ c.timeout_seconds := by
        split at hl
        · exact hl
        · nlinarith
      have := (Int.le_ediv_iff_mul_le hpos).mpr hle
      omega

/-- C15 on scenario F of the specification (interval 10, timeout 60, no check at start). -/
theorem C15_elapsed_witness :
    0 < scenario_F.interval_seconds ∧ 0 ≤ scenario_F.timeout_seconds ∧
    ∃ r, main_loop scenario_F env_F = some r ∧
      (∀ (j : Nat) (hj : j < r.ticks.length),
        r.ticks[j].duration =
          (if scenario_F.check_at_start then (j : Int) * scenario_F.interval_seconds
           else ((j : Int) + 1) * scenario_F.interval_seconds) ∧
        scenario_F.interval_seconds ∣ r.ticks[j].duration ∧
        r.ticks[j].duration ≤ scenario_F.timeout_seconds) ∧
      (∀ (j : Nat) (hj : j + 1 < r.ticks.length),
        r.ticks[j + 1].duration = r.ticks[j].duration + scenario_F.interval_seconds) ∧
      (r.ticks.length : Int) ≤ scenario_F.timeout_seconds / scenario_F.interval_seconds + 1 :=
  ⟨by decide, by decide, C15_elapsed scenario_F env_F (by decide) (by decide)⟩

/-- C16, as stated, fails with `--check-at-start`: in single-shot mode with an interval of
five seconds the timeout is set to 1 (line 247), not to the interval. -/
theorem C16_counterexample :
    ({ once_cfg with interval_seconds := 5, check_at_start := true } : Config).check_once
      = true ∧
    (startup_normalise consts_min5
      { once_cfg with interval_seconds := 5, check_at_start := true }).interval_seconds = 5 ∧
    (startup_normalise consts_min5
      { once_cfg with interval_seconds := 5, check_at_start := true }).timeout_seconds = 1 := by
  decide

/-- C16 (amended): in single-shot mode, after the start-up normalisation the timeout is
exactly one second with `--check-at-start` and the interval plus one second without, and
`stay` is off whether or not `--stay` was given. -/
theorem C16_single_shot_forcing (k : Consts) (c : Config) (honce : c.check_once = true) :
    (c.check_at_start = true → (startup_normalise k c).timeout_seconds = 1) ∧
    (c.check_at_start = false →
      (startup_normalise k c).timeout_seconds =
        (startup_normalise k c).interval_seconds + 1) ∧
    (startup_normalise k c).stay = false := by
  obtain ⟨_, h2, h3⟩ := startup_normalise_once k c honce
  refine ⟨?_, ?_, h2⟩
  · intro h
    rw [h3, h]
    rfl
  · intro h
    rw [h3, h]
    rfl

/-- C16 (amended) on a single-shot command line with `--stay` and an interval of one
second. -/
theorem C16_single_shot_forcing_witness :
    ({ once_cfg with stay := true } : Config).check_once = true ∧
    (startup_normalise consts_min1 { once_cfg with stay := true }).timeout_seconds =
      (startup_normalise consts_min1 { once_cfg with stay := true }).interval_seconds + 1 ∧
    (startup_normalise consts_min1 { once_cfg with stay := true }).stay = false :=
  ⟨rfl, (C16_single_shot_forcing consts_min1 { once_cfg with stay := true } rfl).2.1 rfl,
    (C16_single_shot_forcing consts_min1 { once_cfg with stay := true } rfl).2.2⟩

/-- C17: the pass over the file does not depend on what the presence vector held before:
from any two vectors with one slot per keyword the pass over the same lines gives the same
vector; a second pass over the same lines gives the vector of the first; and a keyword that
is in no line of the file any more has its slot false after the pass, whatever the pass
before had found. -/
theorem C17_pass_memoryless (keywords : List Str) (ignore_keyword : Str)
    (found found1 : List Bool) (lines : List Str)
    (hlen : found.length = keywords.length) (hlen1 : found1.length = keywords.length) :
    file_pass keywords ignore_keyword found lines =
      file_pass keywords ignore_keyword found1 lines ∧
    file_pass keywords ignore_keyword (file_pass keywords ignore_keyword found lines) lines =
      file_pass keywords ignore_keyword found lines ∧
    ∀ (lines1 : List Str) (i : Nat) (hi : i < keywords.length),
      (∀ line ∈ lines1, ¬ keywords[i] <:+: line) →
      (file_pass keywords ignore_keyword (file_pass keywords ignore_keyword found lines)
        lines1)[i]? = some false := by
  refine ⟨file_pass_congr _ _ _ _ _ (by rw [hlen, hlen1]),
    file_pass_congr _ _ _ _ _ (by rw [file_pass_length]), ?_⟩
  intro lines1 i hi hno
  rw [file_pass_get _ _ _ _ i (by rw [file_pass_length, hlen]; exact hi)]
  simp only [Option.some.injEq, decide_eq_false_iff_not, not_and, not_exists]
  intro _ line hl h1
  rw [List.getD_eq_getElem?_getD, List.getElem?_eq_getElem hi, Option.getD_some] at h1
  exact absurd h1 (hno line hl)

/-- C17 on a sample file: the vector left by an earlier tick is all true. -/
theorem C17_pass_memoryless_witness :
    [true, true].length = pass_keywords.length ∧
    [false, false].length = pass_keywords.length ∧
    file_pass pass_keywords "<LW-ignore>".toList [true, true] pass_lines =
      file_pass pass_keywords "<LW-ignore>".toList [false, false] pass_lines :=
  ⟨by decide, by decide,
    (C17_pass_memoryless pass_keywords "<LW-ignore>".toList [true, true] [false, false]
      pass_lines (by decide) (by decide)).1⟩

/-- C18: on a presence vector with exactly one slot the trigger decision with `all_cond`
true is the decision with `all_cond` false, for either value of `found_cond`. -/
theorem C18_single_keyword (c : Config) (found : List Bool) (status : Int)
    (hlen : found.length = 1) :
    (evaluate { c with all_cond := true } found status).1 =
      (evaluate { c with all_cond := false } found status).1 := by
  obtain ⟨b, rfl⟩ := List.length_eq_one.mp hlen
  unfold evaluate
  cases c.found_cond <;> simp [all_of, any_of]

/-- C18 on the vector `[true]` and scenario A. -/
theorem C18_single_keyword_witness :
    [true].length = 1 ∧
    (evaluate { scenario_A with all_cond := true } [true] 0).1 =
      (evaluate { scenario_A with all_cond := false } [true] 0).1 :=
  ⟨rfl, C18_single_keyword scenario_A [true] 0 rfl⟩

/-- C19, as stated, fails at a tick the liveness probe ends: the only keyword is the
ignore token, the trigger is on a missing keyword, the file exists at the first tick, but
the probe prints nothing there, so the tick does nothing but the probe: `condition` is not
assigned and `main_execute` is not called. -/
theorem C19_counterexample :
    scenario_ignored.keywords = [scenario_ignored.ignore_keyword] ∧
    scenario_ignored.found_cond = false ∧
    (env_E 0).file_good = true ∧
    ∃ r, main_loop scenario_ignored env_E = some r ∧
      r.ticks.map (fun t => t.events) = [[Event.probe (some [])]] :=
  ⟨rfl, rfl, rfl, _, rfl, by decide⟩

/-- C19 (amended): a keyword that contains the ignore token has its slot false after every
pass over any file; and when such a keyword is the only one (and the interval is positive)
the loop returns and, with `found_cond` true, no tick assigns `condition` true or calls
`main_execute`, while with `found_cond` false every tick at which the file exists and
which the liveness probe does not end assigns `condition` true and calls `main_execute`
once. -/
theorem C19_keyword_with_ignore_token (c : Config) (env : Nat → Obs) (kw : Str)
    (hk : c.keywords = [kw]) (hig : c.ignore_keyword <:+: kw)
    (hpos : 0 < c.interval_seconds) :
    (∀ (ks : List Str) (f : List Bool) (lines : List Str) (i : Nat) (hi : i < ks.length),
      f.length = ks.length → c.ignore_keyword <:+: ks[i] →
      (file_pass ks c.ignore_keyword f lines)[i]? = some false) ∧
    ∃ r, main_loop c env = some r ∧
      (c.found_cond = true →
        ∀ t ∈ r.ticks, Event.condition true ∉ t.events ∧ executions t.events = 0) ∧
      (c.found_cond = false →
        ∀ (i : Nat) (hi : i < r.ticks.length),
          (env i).file_good = true → Alive c (env i) →
          Event.condition true ∈ r.ticks[i].events ∧ executions r.ticks[i].events = 1) := by
  refine ⟨fun ks f lines i hi hf h => file_pass_ignored ks _ f lines i hi hf h, ?_⟩
  obtain ⟨r, hr⟩ := main_loop_run c env hpos
  have hpass : ∀ lines, file_pass c.keywords c.ignore_keyword (init_state c).found lines
      = [false] := by
    intro lines
    rw [hk]
    exact file_pass_single_ignored kw _ _ lines (by simp [init_state, hk]) hig
  have hexec : ∀ (j : Nat) (hj : j < r.ticks.length),
      executions r.ticks[j].events =
        if Event.condition true ∈ r.ticks[j].events then 1 else 0 := by
    intro j hj
    rw [run_tick_events c env r hr j hj]
    exact loop_body_executions c (init_state c) (env j)
  refine ⟨r, hr, ?_, ?_⟩
  · intro hfc t ht
    obtain ⟨j, hj, rfl⟩ := List.getElem_of_mem ht
    have hno : Event.condition true ∉ r.ticks[j].events := by
      rw [run_tick_events c env r hr j hj]
      intro hm
      have := ((loop_body_condition_mem c _ _ true).mp hm).2.2
      rw [hpass, evaluate_truth_table, hfc] at this
      cases hac : c.all_cond <;> rw [hac] at this <;> simp [truth_table] at this
    exact ⟨hno, by rw [hexec j hj, if_neg hno]⟩
  · intro hfc i hi hg ha
    have hyes : Event.condition true ∈ r.ticks[i].events := by
      rw [run_tick_events c env r hr i hi]
      refine (loop_body_condition_mem c _ _ true).mpr ⟨ha, hg, ?_⟩
      rw [hpass, evaluate_truth_table, hfc]
      cases c.all_cond <;> simp [truth_table]
    exact ⟨hyes, by rw [hexec i hi, if_pos hyes]⟩

/-- C19 (amended) with the ignore token as the only keyword, the parent alive and the file
there at every tick. -/
theorem C19_keyword_with_ignore_token_witness :
    scenario_ignored.keywords = ["<LOGWATCHER-ignore>".toList] ∧
    scenario_ignored.ignore_keyword <:+: "<LOGWATCHER-ignore>".toList ∧
    0 < scenario_ignored.interval_seconds ∧
    ∃ r, main_loop scenario_ignored (fun _ => obs_A) = some r ∧
      (scenario_ignored.found_cond = true →
        ∀ t ∈ r.ticks, Event.condition true ∉ t.events ∧ executions t.events = 0) ∧
      (scenario_ignored.found_cond = false →
        ∀ (i : Nat) (hi : i < r.ticks.length),
          obs_A.file_good = true → Alive scenario_ignored obs_A →
          Event.condition true ∈ r.ticks[i].events ∧ executions r.ticks[i].events = 1) :=
  ⟨rfl, by decide, by decide,
    (C19_keyword_with_ignore_token scenario_ignored (fun _ => obs_A)
      "<LOGWATCHER-ignore>".toList rfl (by decide) (by decide)).2⟩

/-- C20: when lines are added at the end of the file, every slot that a pass over the old
lines sets is set by a pass over the new lines; so with `found_cond` true a decision that
is true on the old lines is true on the new ones, in the any mode and in the all mode, and
with `found_cond` false a decision that is false on the old lines is false on the new
ones. -/
theorem C20_growth_monotone (c : Config) (found found1 : List Bool) (l l1 : List Str)
    (status : Int) (hlen : found.length = found1.length) :
    (∀ i : Nat, (file_pass c.keywords c.ignore_keyword found l)[i]? = some true →
      (file_pass c.keywords c.ignore_keyword found1 (l ++ l1))[i]? = some true) ∧
    (c.found_cond = true →
      (evaluate c (file_pass c.keywords c.ignore_keyword found l) status).1 = true →
      (evaluate c (file_pass c.keywords c.ignore_keyword found1 (l ++ l1)) status).1
        = true) ∧
    (c.found_cond = false →
      (evaluate c (file_pass c.keywords c.ignore_keyword found l) status).1 = false →
      (evaluate c (file_pass c.keywords c.ignore_keyword found1 (l ++ l1)) status).1
        = false) := by
  have hmono := file_pass_mono c.keywords c.ignore_keyword found found1 l l1 hlen
  have hl : (file_pass c.keywords c.ignore_keyword found l).length =
      (file_pass c.keywords c.ignore_keyword found1 (l ++ l1)).length := by
    rw [file_pass_length, file_pass_length, hlen]
  refine ⟨hmono, ?_, ?_⟩
  · intro hfc h
    rw [evaluate_truth_table, hfc] at h ⊢
    cases hac : c.all_cond <;> rw [hac] at h
    · simp only [truth_table] at h ⊢
      exact exists_true_mono _ _ hmono h
    · simp only [truth_table] at h ⊢
      exact forall_true_mono _ _ hl hmono h
  · intro hfc h
    rw [← Bool.not_eq_true, evaluate_truth_table, hfc] at h ⊢
    cases hac : c.all_cond <;> rw [hac] at h
    · simp only [truth_table, not_exists, not_and, Bool.not_eq_false] at h ⊢
      exact forall_true_mono _ _ hl hmono h
    · simp only [truth_table, not_forall, Bool.not_eq_false] at h ⊢
      obtain ⟨x, hx, hxt⟩ := h
      obtain ⟨y, hy, hyt⟩ := exists_true_mono _ _ hmono ⟨x, hx, hxt⟩
      exact ⟨y, hy, hyt⟩

/-- C20 on a sample file that grows by one line with the second keyword. -/
theorem C20_growth_monotone_witness :
    [false].length = [true].length ∧
    (∀ i : Nat,
      (file_pass scenario_A.keywords scenario_A.ignore_keyword [false] pass_lines)[i]?
        = some true →
      (file_pass scenario_A.keywords scenario_A.ignore_keyword [true]
        (pass_lines ++ ["WARN again".toList]))[i]? = some true) :=
  ⟨rfl,
    (C20_growth_monotone scenario_A [false] [true] pass_lines ["WARN again".toList] 0 rfl).1⟩

/-- C21: without `--check-at-start`, when the timeout is smaller than the interval the
loop returns without running its body once: there is no tick, hence no liveness probe, no
`file_exists` call, no pass over the file and no call of `main_execute`; the loop is left
by expiry with `duration` equal to the interval, `error_exit` is still false and `main`
returns 0. -/
theorem C21_timeout_below_interval (c : Config) (env : Nat → Obs)
    (hstart : c.check_at_start = false)
    (hlt : c.timeout_seconds < c.interval_seconds) :
    ∃ r, main_loop c env = some r ∧
      r.ticks = [] ∧ r.ended = Ended.expired ∧ r.duration = c.interval_seconds ∧
      r.error_exit = false ∧ r.exit = Exit.status 0 := by
  have hd : (init_state c).duration = c.interval_seconds := by
    simp [init_state, start_duration, hstart]
  have hn : ¬ (init_state c).duration ≤ c.timeout_seconds := by
    rw [hd]; omega
  refine ⟨finish c { ticks := [], final := init_state c, ended := Ended.expired }, ?_, rfl,
    rfl, hd, rfl, rfl⟩
  unfold main_loop
  rw [for_loop_expired_at_once c env _ 0 _ hn]
  rfl

/-- C21 on scenario A with a timeout of one minute and an interval of two minutes. -/
theorem C21_timeout_below_interval_witness :
    ({ scenario_A with timeout_seconds := 60, interval_seconds := 120 } : Config).check_at_start
      = false ∧
    ({ scenario_A with timeout_seconds := 60, interval_seconds := 120 } : Config).timeout_seconds
      < ({ scenario_A with timeout_seconds := 60, interval_seconds := 120 } :
          Config).interval_seconds ∧
    ∃ r, main_loop { scenario_A with timeout_seconds := 60, interval_seconds := 120 }
        (fun _ => obs_A) = some r ∧
      r.ticks = [] ∧ r.ended = Ended.expired ∧ r.duration = 120 ∧
      r.error_exit = false ∧ r.exit = Exit.status 0 :=
  ⟨rfl, by decide,
    C21_timeout_below_interval { scenario_A with timeout_seconds := 60, interval_seconds := 120 }
      (fun _ => obs_A) rfl (by decide)⟩

/-- The case is reached from the command line in repeating mode: `-t 1 -n 120` leaves a
timeout of 60 seconds and an interval of 120 seconds, the loop is entered and left without
a tick, and the run ends with status 0. -/
theorem short_timeout_run :
    ∃ evs c r,
      main consts_min1 defaults_plain sample_argv0 args_short_timeout start_ok
        (fun _ => obs_A) = some (Outcome.after_loop evs c r) ∧
      c.check_once = false ∧ c.check_at_start = false ∧
      c.timeout_seconds = 60 ∧ c.interval_seconds = 120 ∧
      r.ticks = [] ∧ r.exit = Exit.status 0 :=
  ⟨_, _, _, rfl, by decide, by decide, by decide, by decide, by decide, by decide⟩

/-- The `abs` of lines 151 and 164 at values that are not an `int`: `-t -71582789` leaves
a timeout of 44 seconds, `-n 4294967396` an interval of 100 seconds, and
`-n -9223372036854775808` the default interval. -/
theorem int_abs_samples :
    timeout_option consts_min1 (-71582789) = 44 ∧
    interval_option defaults_plain 4294967396 = 100 ∧
    interval_option defaults_plain (-9223372036854775808) = 60 := by
  decide

end LogWatcher
